import Mathlib

/-!
Verification development for the LabSync repository (device worker, drivers,
cache and preset parser).  Python source files are shallowly embedded:
pure functions become Lean functions, stateful drivers become explicit
state passing, Python exceptions become `Except String`, Python machine
values (int / float / bool / str / None / tuples) become the `PyValue`
inductive with floats modelled as exact rationals.
-/

namespace LabSync

/-- src/backend/connection_status.py: `ConnectionStatus` enum. -/
inductive ConnectionStatus
  | DISCONNECTED
  | CONNECTED
  | ERROR
  | DISCONNECTING
deriving DecidableEq, Repr

/-- Dynamic Python values exchanged through requests, results and driver
calls.  Python floats are modelled as exact rationals. -/
inductive PyValue
  | none
  | bool (b : Bool)
  | int (n : ℤ)
  | float (q : ℚ)
  | str (s : String)
  | tuple2 (a b : PyValue)
deriving DecidableEq, Repr

/-- Numeric view of a Python value: ints, floats and bools (`True == 1`)
compare and mix numerically in Python. -/
def PyValue.toNum : PyValue → Option ℚ
  | .int n => some (n : ℚ)
  | .float q => some q
  | .bool b => some (if b then 1 else 0)
  | _ => Option.none

/-- A single apostrophe character, used when embedding Python message
strings (for example the rendering of `KeyError` / `AttributeError`). -/
def sq : String := String.singleton (Char.ofNat 39)

/-- Decimal digit character of `n < 10`. -/
def digitChar (n : ℕ) : Char := Char.ofNat (48 + n)

/-- Fuelled digit expansion: `natDecGo fuel m` is the decimal expansion
of `m` when `m ≤ fuel` (and `m > 0`). -/
def natDecGo : ℕ → ℕ → List Char
  | _, 0 => []
  | 0, _ + 1 => []
  | fuel + 1, m + 1 =>
    natDecGo fuel ((m + 1) / 10) ++ [digitChar ((m + 1) % 10)]

/-- Decimal digits of a natural number (most significant first). -/
def natDec (n : ℕ) : List Char :=
  if n = 0 then ['0'] else natDecGo n n

/-- Rendering of an integer the way a Python f-string renders `int`. -/
def intStr (n : ℤ) : String :=
  if n < 0 then "-" ++ String.mk (natDec n.natAbs) else String.mk (natDec n.natAbs)

/-- Python truthiness (`if cmd.value`). -/
def pyTruthy : PyValue → Bool
  | .none => false
  | .bool b => b
  | .int n => decide (n ≠ 0)
  | .float q => decide (q ≠ 0)
  | .str s => decide (s ≠ "")
  | .tuple2 _ _ => true

/-- Python `==` on the embedded values: ints, floats and bools of equal
numeric value are equal (`1 == 1.0 == True`); other types compare by
structure; mismatched types are unequal. -/
def pyEq (a b : PyValue) : Bool :=
  match a.toNum, b.toNum with
  | some x, some y => decide (x = y)
  | _, _ =>
    match a, b with
    | .none, .none => true
    | .str s, .str t => decide (s = t)
    | .tuple2 a1 a2, .tuple2 b1 b2 => pyEq a1 b1 && pyEq a2 b2
    | _, _ => false

/-- Python `<` on the embedded values: numbers compare numerically,
strings lexicographically; any other pairing raises `TypeError`. -/
def pyLt (a b : PyValue) : Except String Bool :=
  match a.toNum, b.toNum with
  | some x, some y => .ok (decide (x < y))
  | _, _ =>
    match a, b with
    | .str s, .str t => .ok (decide (s < t))
    | _, _ => .error "TypeError: comparison not supported between instances"

/-- Python `>` (for these values `a > b` behaves as `b < a`). -/
def pyGt (a b : PyValue) : Except String Bool := pyLt b a

/-- Truncation toward zero, the behaviour of Python `int(float)`. -/
def ratTrunc (q : ℚ) : ℤ := if 0 ≤ q then ⌊q⌋ else -⌊-q⌋

/-- Python whitespace stripped by `str.strip()` / leading-ws of `int()`
(space, tab, newline, carriage return, vertical tab, form feed). -/
def isPySpace (c : Char) : Bool :=
  c.toNat = 32 || c.toNat = 9 || c.toNat = 10 || c.toNat = 13 ||
  c.toNat = 11 || c.toNat = 12

/-- ASCII decimal digit. -/
def isDigitChar (c : Char) : Bool := 48 ≤ c.toNat && c.toNat ≤ 57

/-- ASCII letter. -/
def isAsciiAlpha (c : Char) : Bool :=
  (65 ≤ c.toNat && c.toNat ≤ 90) || (97 ≤ c.toNat && c.toNat ≤ 122)

/-- ASCII model of `str.upper()` on one character. -/
def toUpperAscii (c : Char) : Char :=
  if 97 ≤ c.toNat ∧ c.toNat ≤ 122 then Char.ofNat (c.toNat - 32) else c

/-- ASCII model of `str.lower()` on one character. -/
def toLowerAscii (c : Char) : Char :=
  if 65 ≤ c.toNat ∧ c.toNat ≤ 90 then Char.ofNat (c.toNat + 32) else c

/-- Python `str.strip()` on the character list of a string. -/
def pyStripList (l : List Char) : List Char :=
  ((l.dropWhile isPySpace).reverse.dropWhile isPySpace).reverse

/-- Python `str.strip()`. -/
def pyStrip (s : String) : String := String.mk (pyStripList s.data)

/-- Digit groups of a Python numeric literal: `digit (['_'] digit)*`
(single underscores allowed between digits only).  Arguments: remaining
characters, accumulated digits (reversed), whether the previous character
was an underscore.  Returns the digits if the whole input is consumed. -/
def pyDigitGroup : List Char → List Char → Bool → Option (List Char)
  | [], acc, false => if acc.isEmpty then Option.none else some acc.reverse
  | [], _, true => Option.none
  | c :: rest, acc, lastUnderscore =>
    if isDigitChar c then pyDigitGroup rest (c :: acc) false
    else if c = '_' && !lastUnderscore && !acc.isEmpty then pyDigitGroup rest acc true
    else Option.none

/-- Numeric value of a list of decimal digit characters. -/
def digitsVal (l : List Char) : ℕ :=
  l.foldl (fun a c => 10 * a + (c.toNat - 48)) 0

/-- Python `int(s)` for a string: optional surrounding whitespace,
optional sign, then a digit group (ASCII digits; unicode digits are not
modelled).  `Option.none` models the `ValueError`. -/
def pyIntParse (s : String) : Option ℤ :=
  match pyStripList s.data with
  | [] => Option.none
  | c :: rest =>
    if c = '+' then (pyDigitGroup rest [] false).map fun d => (digitsVal d : ℤ)
    else if c = '-' then
      (pyDigitGroup rest [] false).map fun d => -(digitsVal d : ℤ)
    else (pyDigitGroup (c :: rest) [] false).map fun d => (digitsVal d : ℤ)

/-- Python `int(x)` applied to a dynamic value. -/
def pyToInt : PyValue → Except String ℤ
  | .int n => .ok n
  | .bool b => .ok (if b then 1 else 0)
  | .float q => .ok (ratTrunc q)
  | .str s =>
    match pyIntParse s with
    | some n => .ok n
    | Option.none => .error "ValueError: invalid literal for int() with base 10"
  | _ => .error "TypeError: int() argument must be a string or a number"

/-- src/backend/devices/eco_connect.py `EcoConnect._calculate_checksum`:
`sum_bytes = sum(message); lsb = sum_bytes & 0xFF;
checksum = (~lsb + 1) & 0xFF`.  Python `~x` on ints is `-x - 1`, and
`&: 0xFF` on the (possibly negative) int is its value modulo 256. -/
def calculate_checksum (message : List ℕ) : ℕ :=
  let sum_bytes : ℕ := message.sum
  let lsb : ℤ := (sum_bytes : ℤ) % 256
  ((-lsb - 1 + 1) % 256).toNat

/-- Search for the least exponent `k` (starting at `k₀`, with the given
fuel) making `q * 10^k` integral. -/
def decExpGo (q : ℚ) : ℕ → ℕ → Option (ℤ × ℕ)
  | _, 0 => Option.none
  | k, fuel + 1 =>
    if (q * (10 : ℚ) ^ k).den = 1 then some ((q * (10 : ℚ) ^ k).num, k)
    else decExpGo q (k + 1) fuel

/-- Terminating decimal expansion of a rational: the least `k ≤ 40` with
`q * 10^k` integral, together with that integer. -/
def decExp? (q : ℚ) : Option (ℤ × ℕ) := decExpGo q 0 41

/-- Rendering of a float by a Python f-string (`str(float)`), for floats
whose decimal expansion terminates and that lie in the magnitude range
where CPython prints plain decimal notation (no exponent). -/
def floatStr (q : ℚ) : String :=
  match decExp? q with
  | some (m, 0) => intStr m ++ ".0"
  | some (m, Nat.succ k) =>
    let s := natDec m.natAbs
    let s := if s.length ≤ k + 1 then List.replicate (k + 2 - s.length) '0' ++ s
             else s
    (if m < 0 then "-" else "") ++ String.mk (s.take (s.length - (k + 1))) ++
      "." ++ String.mk (s.drop (s.length - (k + 1)))
  | Option.none => "<nonterminating>" ++ toString q

/-- Rendering of a dynamic value by a Python f-string (`str(x)`).  For
tuples CPython uses the repr of the elements; the embedding reuses the
plain rendering there (tuples never reach a rendered message in the
verified claims). -/
def pyStr : PyValue → String
  | .none => "None"
  | .bool true => "True"
  | .bool false => "False"
  | .int n => intStr n
  | .float q => floatStr q
  | .str s => s
  | .tuple2 a b => "(" ++ pyStr a ++ ", " ++ pyStr b ++ ")"

/-- Request kinds used by `LabSyncWorker.execute_request`
(src/core/labsync_worker.py).  The `RequestType` enum in the snapshot's
src/core/context.py is a stale iteration declaring only POLL and SET; the
worker dispatches on all seven members below (matching spec §3), so the
embedding takes the member set from the worker. -/
inductive RequestType
  | POLL
  | SET
  | START_POLL
  | STOP_POLL
  | CONNECT
  | DISCONNECT
  | QUIT
deriving DecidableEq, Repr

/-- The `.value` string of the Python enum member, used in request ids. -/
def RequestType.valueStr : RequestType → String
  | .POLL => "POLL"
  | .SET => "SET"
  | .START_POLL => "START_POLL"
  | .STOP_POLL => "STOP_POLL"
  | .CONNECT => "CONNECT"
  | .DISCONNECT => "DISCONNECT"
  | .QUIT => "QUIT"

/-- Error categories attached to `RequestResult`s.  As with `RequestType`,
the snapshot's context.py enum is stale; the members are those the worker
and controller actually use (spec §7). -/
inductive ErrorType
  | CONNECTION
  | INIT_CONNECTION
  | TASK
  | CRITICAL
  | TIMEOUT
deriving DecidableEq, Repr

/-- Immutable request value object (`DeviceRequest`).  `parameter` and
`value` default to Python `None`. -/
structure DeviceRequest where
  device_id : String
  parameter : Option String := Option.none
  cmd_type : RequestType
  value : PyValue := PyValue.none
deriving DecidableEq, Repr

/-- Derived correlation id: `f"{cmd_type.value}_{device_id}_{parameter}"`
(a `None` parameter renders as "None"). -/
def DeviceRequest.id (r : DeviceRequest) : String :=
  r.cmd_type.valueStr ++ "_" ++ r.device_id ++ "_" ++
    (match r.parameter with
     | some p => p
     | Option.none => "None")

/-- Result value object emitted by the worker.  Field names follow the
worker's own keyword usage in `_disconnect_device`
(`device_id=`/`request_id=`); the dataclass in the stale context.py has
different field names that the worker never type-checks against. -/
structure RequestResult where
  device_id : String
  request_id : String
  value : PyValue := PyValue.none
  error : Option String := Option.none
  error_type : Option ErrorType := Option.none
deriving DecidableEq, Repr

/-- `RequestResult.is_success` ⇔ `error is None`. -/
def RequestResult.is_success (r : RequestResult) : Bool := r.error.isNone

/-- The `data_type` attribute of a `Parameter` (a Python type object or
`None`). -/
inductive PyType
  | float
  | int
  | bool
  | str
  | noneType
deriving DecidableEq, Repr

/-- Parameter descriptor (src/core/context.py `Parameter`): driver method
name (`None` = read-only / no-op), numeric bounds, unit and value type. -/
structure Parameter where
  key : String
  method : Option String := Option.none
  min_value : PyValue := PyValue.none
  max_value : PyValue := PyValue.none
  unit : PyValue := PyValue.str ""
  data_type : PyType := PyType.float
deriving DecidableEq, Repr

/-- src/core/context.py lines 86-98, `Parameter.validate`:

```
if self.data_type in [int, float] and (self.min_value is None or value is not None):
    if value < self.min_value or value > self.max_value:
        return False
return True
```

Python `or` short-circuits, and the comparisons can raise `TypeError`
(modelled by `Except.error`), which the worker's surrounding `try` turns
into a TASK result. -/
def Parameter.validate (p : Parameter) (value : PyValue) : Except String Bool :=
  if (p.data_type = PyType.int ∨ p.data_type = PyType.float)
      ∧ (p.min_value = PyValue.none ∨ value ≠ PyValue.none) then do
    let lt ← pyLt value p.min_value
    if lt then pure false
    else do
      let gt ← pyGt value p.max_value
      if gt then pure false else pure true
  else pure true

/-- A driver method invocation made by the worker's generic dispatch
(`getattr(self.driver, param_def.method)` called with 0, 1 or 2
positional arguments). -/
inductive DriverCall
  | call0 (method : String)
  | call1 (method : String) (arg : PyValue)
  | call2 (method : String) (a b : PyValue)
deriving DecidableEq, Repr

/-- Outcome of a driver's `open_port` as the worker observes it: success,
a raised `DeviceConnectionError` (the one exception type
`_connect_device` catches), or a raised exception of any other type —
`OmicronLaser.open_port` raises the builtin `ConnectionError`
(omicron.py line 117) and `SpectrumAnalyzer.open_port` takes a single
`ip` argument so the worker's two-argument call raises `TypeError`
(fsv.py line 62) — which escapes the worker's handler. -/
inductive OpenPortResult
  | opened
  | connError (msg : String)
  | otherExn (msg : String)
deriving DecidableEq, Repr

/-- Interface of a driver instance as the worker sees it, over a driver
state type `σ`.  `open_port` receives the port and baudrate and either
succeeds, raises `DeviceConnectionError`, or raises an exception of some
other type; `call` returns the method's value or the raised exception's
string; `getattr` tells whether the attribute lookup succeeds. -/
structure Driver (σ : Type) where
  getattr : String → Bool
  call : σ → DriverCall → σ × Except String PyValue
  open_port : σ → PyValue → PyValue → σ × OpenPortResult
  close_port : σ → σ × Except String Unit

/-- Immutable per-worker configuration: own device id, profile
(parameter-name → `Parameter`) and the driver. -/
structure WorkerCfg (σ : Type) where
  device_id : String
  profile : List (String × Parameter)
  driver : Driver σ

/-- Mutable worker state: driver state, active poll contexts
(`List[Tuple[DeviceRequest, int]]`) and the QTimer (`some i` = running
with interval `i`). -/
structure WorkerState (σ : Type) where
  dstate : σ
  poll_contexts : List (DeviceRequest × ℤ) := []
  timer : Option ℤ := Option.none

/-- Everything one `execute_request` call produces: the new state, the
`resultReady` emissions in order, and the driver method invocations made
by the generic SET/POLL dispatch. -/
structure ExecOut (σ : Type) where
  state : WorkerState σ
  results : List RequestResult
  calls : List DriverCall

/-- `self.profile.parameters[cmd.parameter]` (first binding wins; a
`None` parameter key is never present). -/
def lookupParam (profile : List (String × Parameter)) :
    Option String → Option Parameter
  | some p => (profile.find? fun kv => kv.1 = p).map Prod.snd
  | Option.none => Option.none

/-- `min(interval for _, interval in self._poll_contexts)` (defined as 0
on the empty list, on which the worker never evaluates it). -/
def min_interval (ctxs : List (DeviceRequest × ℤ)) : ℤ :=
  match ctxs.map Prod.snd with
  | [] => 0
  | i :: is => is.foldl min i

/-- `str(KeyError(key))` is the repr of the missing key. -/
def keyErrorStr : Option String → String
  | some p => sq ++ p ++ sq
  | Option.none => "None"

/-- f-string rendering of an optional parameter name. -/
def paramNameStr : Option String → String
  | some p => p
  | Option.none => "None"

/-- Message of the worker's "no method" TASK error for SET. -/
def noMethodMsg (p : Option String) : String :=
  "Parameter " ++ sq ++ paramNameStr p ++ sq ++ " has no method to call."

/-- Message of the worker's bounds-validation TASK error (the two-line
f-string in labsync_worker.py lines 127-128). -/
def validationFailMsg (p : Option String) (v : PyValue) (pd : Parameter) : String :=
  "Validation failed for parameter " ++ sq ++ paramNameStr p ++ sq ++
  " with value " ++ sq ++ pyStr v ++ sq ++ "\n" ++
  pyStr v ++ " not in valid parameter range: " ++
  pyStr pd.min_value ++ " - " ++ pyStr pd.max_value ++ "!"

/-- Approximation of `str(AttributeError)` from a failed `getattr`. -/
def getattrErrMsg (m : String) : String :=
  "object has no attribute " ++ sq ++ m ++ sq

/-- A TASK-typed error result for the given request. -/
def taskResult (device_id : String) (cmd : DeviceRequest) (e : String) :
    RequestResult :=
  ⟨device_id, cmd.id, PyValue.none, some e, some ErrorType.TASK⟩

/-- `if not param_def.method` — falsy when `None` or the empty string. -/
def methodFalsy (pd : Parameter) : Bool :=
  match pd.method with
  | Option.none => true
  | some s => decide (s = "")

/-- How the worker turns a SET value into a driver invocation:
tuples become `method(value[1], value[0])`, `None` becomes `method()`,
anything else `method(value)`. -/
def mkSetCall (m : String) : PyValue → DriverCall
  | .tuple2 a b => .call2 m b a
  | .none => .call0 m
  | v => .call1 m v

/-- The worker's generic SET/POLL dispatch (the final `else` branch of
`execute_request`, labsync_worker.py lines 101-162): profile lookup with
KeyError handling, method / bounds validation for SET, driver invocation,
and the catch-all that turns any raised exception into a TASK result. -/
def set_poll_dispatch (cfg : WorkerCfg σ) (st : WorkerState σ)
    (cmd : DeviceRequest) (isSet : Bool) : ExecOut σ :=
  match lookupParam cfg.profile cmd.parameter with
  | Option.none =>
    ⟨st, [⟨cfg.device_id, cmd.id, PyValue.none,
           some (keyErrorStr cmd.parameter), Option.none⟩], []⟩
  | some param_def =>
    if isSet then
      if methodFalsy param_def then
        ⟨st, [taskResult cfg.device_id cmd (noMethodMsg cmd.parameter)], []⟩
      else
        match param_def.validate cmd.value with
        | .error e => ⟨st, [taskResult cfg.device_id cmd e], []⟩
        | .ok false =>
          ⟨st, [taskResult cfg.device_id cmd
                  (validationFailMsg cmd.parameter cmd.value param_def)], []⟩
        | .ok true =>
          let m := param_def.method.getD ""
          if cfg.driver.getattr m then
            let call := mkSetCall m cmd.value
            match cfg.driver.call st.dstate call with
            | (d, .ok _) =>
              ⟨{st with dstate := d},
               [⟨cfg.device_id, cmd.id, cmd.value, Option.none, Option.none⟩],
               [call]⟩
            | (d, .error e) =>
              ⟨{st with dstate := d}, [taskResult cfg.device_id cmd e], [call]⟩
          else ⟨st, [taskResult cfg.device_id cmd (getattrErrMsg m)], []⟩
    else
      if methodFalsy param_def then
        ⟨st, [taskResult cfg.device_id cmd (noMethodMsg cmd.parameter)], []⟩
      else
        let m := param_def.method.getD ""
        if cfg.driver.getattr m then
          match cfg.driver.call st.dstate (.call0 m) with
          | (d, .ok v) =>
            ⟨{st with dstate := d},
             [⟨cfg.device_id, cmd.id, v, Option.none, Option.none⟩],
             [DriverCall.call0 m]⟩
          | (d, .error e) =>
            ⟨{st with dstate := d}, [taskResult cfg.device_id cmd e],
             [DriverCall.call0 m]⟩
        else ⟨st, [taskResult cfg.device_id cmd (getattrErrMsg m)], []⟩

/-- `LabSyncWorker._connect_device` (labsync_worker.py lines 164-190):
`open_port(cmd.value[0], cmd.value[1])`; success emits a `True` result
and re-arms the timer when poll contexts exist; the `except` clause
catches only `DeviceConnectionError` and emits an INIT_CONNECTION result
when `cmd.parameter == "SILENT"`, else a CONNECTION result.  Any other
exception raised by `open_port` escapes the handler with nothing emitted
(`Except.error`), as does a non-pair `cmd.value` making the subscript
raise. -/
def connect_device (cfg : WorkerCfg σ) (st : WorkerState σ)
    (cmd : DeviceRequest) : Except String (ExecOut σ) :=
  match cmd.value with
  | .tuple2 port baud =>
    match cfg.driver.open_port st.dstate port baud with
    | (d, OpenPortResult.opened) =>
      let st := { st with dstate := d }
      let st := if st.poll_contexts ≠ [] then
          { st with timer := some (min_interval st.poll_contexts) } else st
      .ok ⟨st, [⟨cfg.device_id, cmd.id, PyValue.bool true, Option.none,
                 Option.none⟩], []⟩
    | (d, OpenPortResult.connError e) =>
      let et := if cmd.parameter = some "SILENT" then ErrorType.INIT_CONNECTION
                else ErrorType.CONNECTION
      .ok ⟨{ st with dstate := d },
           [⟨cfg.device_id, cmd.id, PyValue.none, some e, some et⟩], []⟩
    | (_, OpenPortResult.otherExn e) => .error e
  | _ => .error "TypeError: object is not subscriptable"

/-- `LabSyncWorker._disconnect_device` (labsync_worker.py lines 192-221):
one `value=None` result per active poll context, timer stop, then
`close_port` with a `False` result on success or a CONNECTION error
result on any exception. -/
def disconnect_device (cfg : WorkerCfg σ) (st : WorkerState σ)
    (cmd : DeviceRequest) : ExecOut σ :=
  let pollResults := st.poll_contexts.map fun cx =>
    (⟨cfg.device_id, cx.1.id, PyValue.none, Option.none, Option.none⟩ :
      RequestResult)
  let st := { st with timer := (Option.none : Option ℤ) }
  match cfg.driver.close_port st.dstate with
  | (d, .ok _) =>
    ⟨{ st with dstate := d },
     pollResults ++ [⟨cfg.device_id, cmd.id, PyValue.bool false, Option.none,
                      Option.none⟩], []⟩
  | (d, .error e) =>
    ⟨{ st with dstate := d },
     pollResults ++ [⟨cfg.device_id, cmd.id, PyValue.none, some e,
                      some ErrorType.CONNECTION⟩], []⟩

/-- `LabSyncWorker.execute_request` (labsync_worker.py lines 40-162).
The returned `Except` is `.error` exactly when an exception escapes the
slot (possible only outside the SET/POLL `try` block). -/
def execute_request (cfg : WorkerCfg σ) (st : WorkerState σ)
    (cmd : DeviceRequest) : Except String (ExecOut σ) :=
  match cmd.cmd_type with
  | .CONNECT => connect_device cfg st cmd
  | .DISCONNECT => .ok (disconnect_device cfg st cmd)
  | .QUIT =>
    let o := disconnect_device cfg st cmd
    .ok { o with state := { o.state with poll_contexts := [] } }
  | .START_POLL => do
    let interval ← if pyTruthy cmd.value then pyToInt cmd.value else pure 500
    let ctxs :=
      if st.poll_contexts.any (fun cx => cx.1.parameter = cmd.parameter) then
        st.poll_contexts
      else
        st.poll_contexts ++
          [({ device_id := cmd.device_id, cmd_type := RequestType.POLL,
              parameter := cmd.parameter }, interval)]
    let st := { st with poll_contexts := ctxs }
    let st := if st.poll_contexts ≠ [] then
        { st with timer := some (min_interval st.poll_contexts) } else st
    .ok ⟨st, [], []⟩
  | .STOP_POLL =>
    match cmd.parameter with
    | Option.none =>
      .ok ⟨{ st with poll_contexts := [], timer := Option.none }, [], []⟩
    | some _ =>
      let ctxs := st.poll_contexts.filter fun cx =>
        cx.1.parameter ≠ cmd.parameter
      let st := { st with poll_contexts := ctxs }
      let st := if ctxs = [] then { st with timer := (Option.none : Option ℤ) }
                else { st with timer := some (min_interval ctxs) }
      .ok ⟨st, [], []⟩
  | .SET => .ok (set_poll_dispatch cfg st cmd true)
  | .POLL => .ok (set_poll_dispatch cfg st cmd false)

/-- The serial handle of the embedded EcoConnect driver
(`self.EcoVario`): `None` before the first successful `open_port`, open
after it, closed after `close_port`. -/
inductive EcoHandle
  | noHandle
  | open_
  | closed
deriving DecidableEq, Repr

/-- State of the embedded EcoConnect driver
(src/backend/devices/eco_connect.py, `simulate=False`): connection
status, handle, the raw frames written on the wire, and the queued
device responses consumed by `read_bytes(20)`. -/
structure EcoState where
  status : ConnectionStatus
  handle : EcoHandle
  written : List (List ℕ) := []
  readQueue : List (List ℕ) := []
deriving DecidableEq, Repr

/-- A freshly constructed, never connected `EcoConnect`. -/
def ecoInit : EcoState :=
  { status := ConnectionStatus.DISCONNECTED, handle := EcoHandle.noHandle }

/-- `str(AttributeError)` raised when a method is called on the `None`
handle. -/
def ecoAttrError : String :=
  sq ++ "NoneType" ++ sq ++ " object has no attribute " ++ sq ++ "write" ++ sq

/-- `value.to_bytes(4, byteorder="little")` for `0 ≤ value < 2^32`. -/
def toLittleEndian4 (value : ℕ) : List ℕ :=
  [value % 256, value / 256 % 256, value / 65536 % 256,
   value / 16777216 % 256]

/-- Writing one frame and consuming the 20-byte echo/response, shared by
`_write_sdo` and `_read_sdo` below: write raises on an absent or closed
handle, and `read_bytes` raises a VISA timeout when no response is
queued.  Returns the consumed response. -/
def ecoWire (st : EcoState) (frame : List ℕ) :
    EcoState × Except String (List ℕ) :=
  match st.handle with
  | EcoHandle.noHandle => (st, .error ecoAttrError)
  | EcoHandle.closed => (st, .error "InvalidSession: Invalid session handle")
  | EcoHandle.open_ =>
    let st := { st with written := st.written ++ [frame] }
    match st.readQueue with
    | [] => (st, .error "VisaIOError: Timeout expired before operation completed")
    | resp :: rest => ({ st with readQueue := rest }, .ok resp)

/-- eco_connect.py lines 119-150, `EcoConnect._write_sdo`:

```
object_1 = object >> 8
object_2 = object & 0xFF
hex_value = value.to_bytes(4, byteorder="little")
value_list = list(hex_value)
message = [id, 0x22, object_2, object_1,
           value_list[0], value_list[1], value_list[2], value_list[3]]
trailing_byte = self._calculate_checksum(message)
message.append(trailing_byte)
self.EcoVario.write(message)
_ = self.EcoVario.read_bytes(20)
```

Note the message has no 0x00 byte between `object_1` and the value
bytes.  `to_bytes` raises `OverflowError` outside `[0, 2^32)`. -/
def eco_write_sdo (st : EcoState) (id object : ℕ) (value : ℤ) :
    EcoState × Except String Unit :=
  if value < 0 ∨ 2 ^ 32 ≤ value then
    (st, .error "OverflowError: cannot convert to 4 bytes")
  else
    let object_1 := object / 256
    let object_2 := object % 256
    let value_list := toLittleEndian4 value.toNat
    let message := [id, 0x22, object_2, object_1] ++ value_list
    let trailing_byte := calculate_checksum message
    let (st, r) := ecoWire st (message ++ [trailing_byte])
    (st, r.map fun _ => ())

/-- Hex digit characters (lowercase, as `bytes.hex()` produces). -/
def hexDigit (n : ℕ) : Char :=
  if n < 10 then Char.ofNat (48 + n) else Char.ofNat (87 + n)

/-- `bytes.hex()` of a list of byte values. -/
def bytesHex (l : List ℕ) : String :=
  String.mk (l.flatMap fun b => [hexDigit (b / 16 % 16), hexDigit (b % 16)])

/-- eco_connect.py lines 183-196, `EcoConnect._invert_hex`: split the hex
string into 2-character groups, reverse the group order, join. -/
def chunk2 : List Char → List (List Char)
  | [] => []
  | [a] => [[a]]
  | a :: b :: rest => [a, b] :: chunk2 rest

/-- `EcoConnect._invert_hex` on strings. -/
def invert_hex (hex_string : String) : String :=
  String.mk (chunk2 hex_string.data).reverse.flatten

/-- eco_connect.py lines 152-181, `EcoConnect._read_sdo`: request frame
`[id, 0x40, object_2, object_1, 0, 0, 0, 0, 0]` plus checksum, then
`read_bytes(20).hex()[20:][10:-2]` byte-order-inverted. -/
def eco_read_sdo (st : EcoState) (id object : ℕ) :
    EcoState × Except String String :=
  let object_1 := object / 256
  let object_2 := object % 256
  let message := [id, 0x40, object_2, object_1, 0x00, 0x00, 0x00, 0x00, 0x00]
  let trailing_byte := calculate_checksum message
  let (st, r) := ecoWire st (message ++ [trailing_byte])
  match r with
  | .error e => (st, .error e)
  | .ok resp =>
    let h := (bytesHex resp).drop 20
    let payload := (h.drop 10).dropRight 2
    (st, .ok (invert_hex payload))

/-- `int(s, 16)` for the payload strings `_read_sdo` produces: nonempty
strings of hex digits (the full `int(_, 16)` grammar with sign/prefix
never occurs there).  `Option.none` models the raised `ValueError`. -/
def hexVal? (s : String) : Option ℕ :=
  if s.data ≠ [] ∧ s.data.all (fun c => c.isDigit ∨ ('a' ≤ c ∧ c ≤ 'f')) then
    some (s.data.foldl
      (fun a c => 16 * a + (if c.isDigit then c.toNat - 48 else c.toNat - 87))
      0)
  else Option.none

/-- The scale factor 0.001253258 (raw encoder unit → mm). -/
def ecoPosScale : ℚ := 1253258 / 10 ^ 9

/-- The scale factor 0.000019585 (speed). -/
def ecoSpeedScale : ℚ := 19585 / 10 ^ 9

/-- The scale factor 0.020059880 (acceleration / deceleration). -/
def ecoAccScale : ℚ := 20059880 / 10 ^ 9

/-- Python `round()` (banker's rounding: ties to the even integer). -/
def pyRound (q : ℚ) : ℤ :=
  let f := ⌊q⌋
  let r := q - (f : ℚ)
  if r < 1 / 2 then f
  else if 1 / 2 < r then f + 1
  else if f % 2 = 0 then f else f + 1

/-- A guarded EcoConnect write-setter (`set_position`, `set_speed`, ...):
`if self.status == ConnectionStatus.CONNECTED:` convert and
`_write_sdo`, else fall through and `return None`.  The conversion
divides by the scale factor, which raises `TypeError` on non-numeric
values — but only when connected. -/
def ecoScaledSet (st : EcoState) (object : ℕ) (scale : ℚ) (v : PyValue) :
    EcoState × Except String PyValue :=
  if st.status = ConnectionStatus.CONNECTED then
    match v.toNum with
    | some q =>
      let encoder_int := pyRound (q / scale)
      let (st, r) := eco_write_sdo st 0x01 object encoder_int
      (st, r.map fun _ => PyValue.none)
    | Option.none => (st, .error "TypeError: unsupported operand type for /")
  else (st, .ok PyValue.none)

/-- `EcoConnect.set_position` (object 0x607A, scale 0.001253258). -/
def eco_set_position (st : EcoState) (v : PyValue) :
    EcoState × Except String PyValue :=
  ecoScaledSet st 0x607A ecoPosScale v

/-- `EcoConnect.set_speed` (object 0x6081, scale 0.000019585). -/
def eco_set_speed (st : EcoState) (v : PyValue) :
    EcoState × Except String PyValue :=
  ecoScaledSet st 0x6081 ecoSpeedScale v

/-- `EcoConnect.set_acceleration` (object 0x6083, scale 0.020059880). -/
def eco_set_acceleration (st : EcoState) (v : PyValue) :
    EcoState × Except String PyValue :=
  ecoScaledSet st 0x6083 ecoAccScale v

/-- `EcoConnect.set_deacceleration` (object 0x6084, scale 0.020059880). -/
def eco_set_deacceleration (st : EcoState) (v : PyValue) :
    EcoState × Except String PyValue :=
  ecoScaledSet st 0x6084 ecoAccScale v

/-- A guarded zero-argument write command (`start`, `stop`,
`reset_current_error`): write a fixed control word when connected, else
no-op. -/
def ecoFire (st : EcoState) (object value : ℕ) :
    EcoState × Except String PyValue :=
  if st.status = ConnectionStatus.CONNECTED then
    let (st, r) := eco_write_sdo st 0x01 object (value : ℤ)
    (st, r.map fun _ => PyValue.none)
  else (st, .ok PyValue.none)

/-- `EcoConnect.start`: control word 0x003F to 0x6040 when connected. -/
def eco_start (st : EcoState) : EcoState × Except String PyValue :=
  ecoFire st 0x6040 0x003F

/-- `EcoConnect.stop`: control word 0x0037 to 0x6040 when connected. -/
def eco_stop (st : EcoState) : EcoState × Except String PyValue :=
  ecoFire st 0x6040 0x0037

/-- `EcoConnect.reset_current_error`: control word 0x01AF when
connected. -/
def eco_reset_current_error (st : EcoState) : EcoState × Except String PyValue :=
  ecoFire st 0x6040 0x01AF

/-- `EcoConnect.set_control_word`: guarded write of the given word. -/
def eco_set_control_word (st : EcoState) (v : PyValue) :
    EcoState × Except String PyValue :=
  if st.status = ConnectionStatus.CONNECTED then
    match v with
    | .int n =>
      let (st, r) := eco_write_sdo st 0x01 0x6040 n
      (st, r.map fun _ => PyValue.none)
    | _ => (st, .error "TypeError: to_bytes expects an int")
  else (st, .ok PyValue.none)

/-- eco_connect.py lines 391-403, `EcoConnect.home_stage`: the only
command method WITHOUT the `status == CONNECTED` guard — it always
attempts its four `_write_sdo` calls (enable 0xF, homing method 0x11,
mode 0x6, trigger 0x1F).  Stops at the first raised exception. -/
def eco_home_stage (st : EcoState) : EcoState × Except String PyValue :=
  match eco_write_sdo st 0x01 0x6040 0xF with
  | (st, .error e) => (st, .error e)
  | (st, .ok _) =>
    match eco_write_sdo st 0x01 0x6098 0x11 with
    | (st, .error e) => (st, .error e)
    | (st, .ok _) =>
      match eco_write_sdo st 0x01 0x6060 0x6 with
      | (st, .error e) => (st, .error e)
      | (st, .ok _) =>
        match eco_write_sdo st 0x01 0x6040 0x1F with
        | (st, .error e) => (st, .error e)
        | (st, .ok _) => (st, .ok PyValue.none)

/-- `EcoConnect.get_current_position`: when connected, read 0x6063 and
return `int(hex, 16) * 0.001253258` as a float (an unparsable payload
raises `ValueError`; the source's `except TypeError` clause can never
fire for it).  When not connected, return `None`. -/
def eco_get_current_position (st : EcoState) :
    EcoState × Except String PyValue :=
  if st.status = ConnectionStatus.CONNECTED then
    match eco_read_sdo st 0x01 0x6063 with
    | (st, .error e) => (st, .error e)
    | (st, .ok position_hex) =>
      match hexVal? position_hex with
      | some n => (st, .ok (PyValue.float ((n : ℚ) * ecoPosScale)))
      | Option.none =>
        (st, .error "ValueError: invalid literal for int() with base 16")
  else (st, .ok PyValue.none)

/-- `EcoConnect.get_current_error`: guarded read of 0x603F returning the
raw hex string, `None` when not connected. -/
def eco_get_current_error (st : EcoState) : EcoState × Except String PyValue :=
  if st.status = ConnectionStatus.CONNECTED then
    match eco_read_sdo st 0x01 0x603F with
    | (st, .error e) => (st, .error e)
    | (st, .ok h) => (st, .ok (PyValue.str h))
  else (st, .ok PyValue.none)

/-- `EcoConnect.get_status_word`: guarded read of 0x6041 returning the
raw hex string, `None` when not connected. -/
def eco_get_status_word (st : EcoState) : EcoState × Except String PyValue :=
  if st.status = ConnectionStatus.CONNECTED then
    match eco_read_sdo st 0x01 0x6041 with
    | (st, .error e) => (st, .error e)
    | (st, .ok h) => (st, .ok (PyValue.str h))
  else (st, .ok PyValue.none)

/-- `EcoConnect.close_port`: only acts when connected — closes the handle
and moves to DISCONNECTING. -/
def eco_close_port (st : EcoState) : EcoState × Except String Unit :=
  if st.status = ConnectionStatus.CONNECTED then
    ({ st with handle := EcoHandle.closed,
               status := ConnectionStatus.DISCONNECTING }, .ok ())
  else (st, .ok ())

/-- Method-name dispatch of the embedded EcoConnect instance, as
`getattr(driver, name)(args...)` reaches it from the worker.  Unknown
names or wrong arities raise `TypeError` (a Python call of a bound method
with the wrong argument count). -/
def ecoCall (st : EcoState) : DriverCall → EcoState × Except String PyValue
  | .call1 "set_position" v => eco_set_position st v
  | .call1 "set_speed" v => eco_set_speed st v
  | .call1 "set_acceleration" v => eco_set_acceleration st v
  | .call1 "set_deacceleration" v => eco_set_deacceleration st v
  | .call1 "set_control_word" v => eco_set_control_word st v
  | .call0 "start" => eco_start st
  | .call0 "stop" => eco_stop st
  | .call0 "reset_current_error" => eco_reset_current_error st
  | .call0 "home_stage" => eco_home_stage st
  | .call0 "get_current_position" => eco_get_current_position st
  | .call0 "get_current_error" => eco_get_current_error st
  | .call0 "get_status_word" => eco_get_status_word st
  | _ => (st, .error "TypeError: bad call")

/-- Names `getattr` finds on the embedded EcoConnect instance. -/
def ecoAttrNames : List String :=
  ["set_position", "set_speed", "set_acceleration", "set_deacceleration",
   "set_control_word", "start", "stop", "reset_current_error", "home_stage",
   "get_current_position", "get_current_error", "get_status_word",
   "open_port", "close_port"]

/-- The EcoConnect driver as the worker sees it.  `open_port` succeeds
iff a response environment flag is encoded in the port value (the
physical outcome is external), here modelled as: any port opens. -/
def ecoDriver : Driver EcoState where
  getattr m := ecoAttrNames.contains m
  call := ecoCall
  open_port st _ _ :=
    ({ st with handle := EcoHandle.open_,
               status := ConnectionStatus.CONNECTED }, OpenPortResult.opened)
  close_port := eco_close_port

/-- State of the embedded TGA1244 frequency generator driver
(src/backend/devices/tga.py, `simulate=False`): connection status, the
`current_channel` cursor, and the decoded ASCII strings passed to
`write_raw`. -/
structure TgaState where
  status : ConnectionStatus
  current_channel : ℤ
  written : List String := []
deriving DecidableEq, Repr

/-- A TGA driver right after a successful `open_port`: connected,
`current_channel = 1`, nothing written yet. -/
def tgaOpened : TgaState :=
  { status := ConnectionStatus.CONNECTED, current_channel := 1 }

/-- tga.py lines 91-119, `FrequencyGenerator._write` (`simulate=False`):

```
if self.status == ConnectionStatus.CONNECTED:
    if channel != self.current_channel:
        self.TGA.write_raw(b"SETUPCH" + str(channel).encode() + b"\n")
    return self.TGA.write_raw(what.encode() + b" " + value.encode() + b"\n")
else:
    return None
```

Note: `self.current_channel` is compared but never assigned here (or
anywhere outside `__init__`/`open_port`). -/
def tga_write (st : TgaState) (channel : ℤ) (what value : String) : TgaState :=
  if st.status = ConnectionStatus.CONNECTED then
    let st :=
      if channel ≠ st.current_channel then
        { st with written :=
            st.written ++ ["SETUPCH" ++ intStr channel ++ "\n"] }
      else st
    { st with written := st.written ++ [what ++ " " ++ value ++ "\n"] }
  else st

/-- The waveforms `set_waveform` accepts. -/
def tgaWaveforms : List String := ["sine", "square", "dc", "triag"]

/-- tga.py lines 121-143, `FrequencyGenerator.set_waveform`: raise on an
unsupported waveform, else `_write(channel, "WAVE", waveform)`. -/
def tga_set_waveform (st : TgaState) (channel : ℤ) (waveform : String) :
    TgaState × Except String Unit :=
  if tgaWaveforms.contains waveform then
    (tga_write st channel "WAVE" waveform, .ok ())
  else
    (st, .error ("Wavefrom " ++ waveform ++ " is not supported!"))

/-- A generic setter invocation on the TGA driver: every public setter
funnels into `_write channel WHAT VALUE` (string-rendered), so a call
trace is modelled as the list of `(channel, what, value)` triples it
produces. -/
def tgaRun (st : TgaState) : List (ℤ × String × String) → TgaState
  | [] => st
  | (ch, what, value) :: rest => tgaRun (tga_write st ch what value) rest

/-- The selector-emission discipline the spec claims (spec §4.1 and
end-to-end scenario 3), stated as a write-trace generator: a `SETUPCH n`
is emitted iff `n` differs from the channel of the most recent command,
the cursor starting at 1 after `open_port` and tracking every command.
This definition follows the spec's words, for comparison with the
source-derived `tgaRun`. -/
def specCursorRun (cursor : ℤ) : List (ℤ × String × String) → List String
  | [] => []
  | (ch, what, value) :: rest =>
    (if ch ≠ cursor then ["SETUPCH" ++ intStr ch ++ "\n"] else []) ++
    ([what ++ " " ++ value ++ "\n"]) ++ specCursorRun ch rest

/-- Outcome of `OmicronLaser.reset_controller`'s wait loop. -/
inductive ResetOutcome
  | gotReply
  | timedOutReturn
  | raisedTimeout
  | blockedInRead
deriving DecidableEq, Repr

/-- omicron.py lines 146-165, `OmicronLaser.reset_controller` wait loop:

```
timeout = time.time() + 10
self.Laser.write("?RsC")
while time.time() < timeout:
    response = self.Laser.read()
    if response.strip() == "!RsC>":
        break
    else:
        time.sleep(0.1)
```

Time is modelled in tenths of a second: `now` is the elapsed time,
`deadline = 100`, and the trace lists each `read()`'s reply together
with the time that iteration consumes (read time plus the 0.1 s sleep).
When the while-condition fails the loop falls through and the method
RETURNS NORMALLY — there is no raise in the final source.  An exhausted
trace before the deadline means `read()` blocks. -/
def resetLoop (deadline : ℕ) : ℕ → List (String × ℕ) → ResetOutcome
  | now, [] =>
    if now < deadline then ResetOutcome.blockedInRead
    else ResetOutcome.timedOutReturn
  | now, (response, dt) :: rest =>
    if now < deadline then
      if pyStrip response = "!RsC>" then ResetOutcome.gotReply
      else resetLoop deadline (now + dt) rest
    else ResetOutcome.timedOutReturn

/-- `OmicronLaser.reset_controller`: writes `"?RsC"` then runs the wait
loop with the fixed 10 s (= 100 tenths) deadline. -/
def reset_controller (trace : List (String × ℕ)) : List String × ResetOutcome :=
  (["?RsC"], resetLoop 100 0 trace)

/-- utilities.py lines 236-257, `ValueHandler.check_values` — returns
`true` when the two values count as DIFFERENT:

```
if value_1 is None: return True
if isinstance(value_2, float) and isinstance(value_1, float):
    return not math.isclose(value_1, value_2, abs_tol=1e-4)
return value_1 != value_2
```

`math.isclose(a, b, abs_tol=1e-4)` is
`abs(a-b) <= max(1e-9 * max(abs(a), abs(b)), 1e-4)` (the default
`rel_tol=1e-9` stays in force). -/
def mathIsClose (a b : ℚ) : Bool :=
  decide (|a - b| ≤ max (1 / 10 ^ 9 * max |a| |b|) (1 / 10 ^ 4))

/-- `ValueHandler.check_values`. -/
def check_values (value_1 value_2 : PyValue) : Bool :=
  if value_1 = PyValue.none then true
  else
    match value_1, value_2 with
    | .float a, .float b => !(mathIsClose a b)
    | v1, v2 => !(pyEq v1 v2)

/-- The change-detection predicate the spec claims ("unchanged exactly
when the stored and new values are both floats with |a-b| < 1e-4, or,
for non-float pairs, when they are equal under exact equality").  This
definition follows the spec's words, for comparison with the
source-derived `check_values`. -/
def specUnchanged (stored new : PyValue) : Bool :=
  match stored, new with
  | .float a, .float b => decide (|a - b| < 1 / 10 ^ 4)
  | a, b => decide (a = b)

/-- Modelled from the spec: `InstrumentCache.set_value` (the
`InstrumentCache` class is imported by labsync_app.py from
src/core/storage.py but missing from the snapshot, whose storage.py is a
stale iteration).  Spec §4.4: look up the stored value; if absent, store
and notify; if present, compare with the float-tolerant equality (the
in-source `check_values`) and only overwrite + notify on an actual
difference.  Returns the updated store and the number of notifications
emitted. -/
def cache_set_value (cache : List ((String × String) × PyValue))
    (device parameter : String) (v : PyValue) :
    List ((String × String) × PyValue) × ℕ :=
  match cache.find? fun kv => kv.1 = (device, parameter) with
  | Option.none => (cache ++ [((device, parameter), v)], 1)
  | some kv =>
    if check_values kv.2 v then
      (cache.map fun kv2 =>
        if kv2.1 = (device, parameter) then (kv2.1, v) else kv2, 1)
    else (cache, 0)

/-- `str.upper()` (ASCII model; the verified inputs are ASCII). -/
def pyUpper (s : String) : String := String.mk (s.data.map toUpperAscii)

/-- `str.lower()` (ASCII model). -/
def pyLower (s : String) : String := String.mk (s.data.map toLowerAscii)

/-- Strip all leading and trailing occurrences of one character
(`str.strip(c)`). -/
def stripChar (c : Char) (l : List Char) : List Char :=
  ((l.dropWhile (· = c)).reverse.dropWhile (· = c)).reverse

/-- `val_str.strip('"').strip("'")`. -/
def pyStripQuotes (s : String) : String :=
  String.mk (stripChar (Char.ofNat 39) (stripChar '"' s.data))

/-- A Python float literal: a finite value or `inf`/`nan` (which
`float()` accepts but which fall outside the rational float model). -/
inductive FloatLit
  | fin (q : ℚ)
  | nonfin
deriving DecidableEq, Repr

/-- Maximal run of digit/underscore characters and the remainder. -/
def splitDigitRun (l : List Char) : List Char × List Char :=
  (l.takeWhile (fun c => isDigitChar c || c = '_'),
   l.dropWhile (fun c => isDigitChar c || c = '_'))

/-- Validated digit group: underscores only between digits.  For an
empty run, `emptyOk` decides whether it is accepted (as an absent
integer/fraction part of a float literal). -/
def digitRun? (l : List Char) (emptyOk : Bool) : Option (List Char) :=
  if l.isEmpty then (if emptyOk then some [] else Option.none)
  else pyDigitGroup l [] false

/-- Exponent part of a Python float literal: empty, or `(e|E)(+|-)?digits`. -/
def floatExp? : List Char → Option ℤ
  | [] => some 0
  | c :: rest =>
    if c = 'e' ∨ c = 'E' then
      match rest with
      | '+' :: r => (digitRun? (r.takeWhile (fun c => isDigitChar c || c = '_')) false).bind
          fun d => if r.dropWhile (fun c => isDigitChar c || c = '_') = [] then
            some (digitsVal d : ℤ) else Option.none
      | '-' :: r => (digitRun? (r.takeWhile (fun c => isDigitChar c || c = '_')) false).bind
          fun d => if r.dropWhile (fun c => isDigitChar c || c = '_') = [] then
            some (-(digitsVal d : ℤ)) else Option.none
      | r => (digitRun? (r.takeWhile (fun c => isDigitChar c || c = '_')) false).bind
          fun d => if r.dropWhile (fun c => isDigitChar c || c = '_') = [] then
            some (digitsVal d : ℤ) else Option.none
    else Option.none

/-- Sign handling of a Python float literal. -/
def floatSign : List Char → ℤ × List Char
  | [] => (1, [])
  | c :: rest =>
    if c = '+' then (1, rest)
    else if c = '-' then (-1, rest)
    else (1, c :: rest)

/-- Python `float(s)`: optional whitespace and sign, then either
`inf`/`infinity`/`nan` (case-insensitive) or a decimal literal
`digits [. digits] [exp]` with at least one mantissa digit.
`Option.none` models the raised `ValueError`. -/
def pyFloatParse (s : String) : Option FloatLit :=
  let sl := floatSign (pyStripList s.data)
  let sign := sl.1
  let l := sl.2
  let low := String.mk (l.map toLowerAscii)
  if low = "inf" ∨ low = "infinity" ∨ low = "nan" then some FloatLit.nonfin
  else
    let (intRun, rest) := splitDigitRun l
    let fromParts (intDs fracDs : List Char) (expRest : List Char) :
        Option FloatLit :=
      if intDs.isEmpty ∧ fracDs.isEmpty then Option.none
      else
        (floatExp? expRest).map fun e =>
          FloatLit.fin ((sign : ℚ) * (digitsVal (intDs ++ fracDs) : ℚ)
            / (10 : ℚ) ^ fracDs.length * (10 : ℚ) ^ e)
    match digitRun? intRun true with
    | Option.none => Option.none
    | some intDs =>
      match rest with
      | [] => if intDs.isEmpty then Option.none else fromParts intDs [] []
      | c :: rest2 =>
        if c = '.' then
          let (fracRun, rest3) := splitDigitRun rest2
          match digitRun? fracRun true with
          | Option.none => Option.none
          | some fracDs => fromParts intDs fracDs rest3
        else if intDs.isEmpty then Option.none
        else fromParts intDs [] (c :: rest2)

/-- lab_parser.py lines 26-56, `LabFileParser.parse_value_string`: strip,
try the boolean words, then `int()`, then `float()`, else a string with
surrounding quote characters stripped.  An `inf`/`nan` float input
produces a non-finite Python float, which has no rational counterpart;
such inputs never arise from `save` and are excluded by every verified
property. -/
def parse_value_string (s : String) : PyValue :=
  let val_str := pyStrip s
  if pyUpper val_str = "TRUE" ∨ pyUpper val_str = "ON" then PyValue.bool true
  else if pyUpper val_str = "FALSE" ∨ pyUpper val_str = "OFF" then
    PyValue.bool false
  else
    match pyIntParse val_str with
    | some n => PyValue.int n
    | Option.none =>
      match pyFloatParse val_str with
      | some (.fin q) => PyValue.float q
      | some .nonfin => PyValue.float 0
      | Option.none => PyValue.str (pyStripQuotes val_str)

/-- A value stored under one `(device, parameter)` cache key: a scalar,
or a channel-indexed nested map. -/
inductive LabValue
  | scalar (v : PyValue)
  | chan (m : List (ℕ × PyValue))
deriving DecidableEq, Repr

/-- Association-list lookup (first binding wins, as in a Python dict with
unique keys). -/
def alookup [DecidableEq K] (m : List (K × V)) (k : K) : Option V :=
  (m.find? fun kv => kv.1 = k).map Prod.snd

/-- Python-dict update: replace in place when the key exists (dicts keep
first-insertion order), else append. -/
def dictSet [DecidableEq K] (m : List (K × V)) (k : K) (v : V) :
    List (K × V) :=
  if m.any fun kv => kv.1 = k then
    m.map fun kv => if kv.1 = k then (k, v) else kv
  else m ++ [(k, v)]

/-- ASCII model of the regex class `\w`. -/
def wordChar (c : Char) : Bool := isAsciiAlpha c || isDigitChar c || c = '_'

/-- The match result of one stripped line against the loader's two
regexes. -/
inductive LabLine
  | blank
  | section (dev : String)
  | entry (param : String) (idx : Option ℕ) (valueStr : String)
  | nomatch
deriving DecidableEq, Repr

/-- The line pattern `^(\w+)(?:\[(\d+)])?\s*=\s*(.*)$` applied to an
already-stripped line.  Maximal-munch on `\w+` and `\d+` is equivalent to
the regex's backtracking search here, because after a shortened `\w+`
prefix the next character would still be a word character and could never
match `[`, whitespace or `=`. -/
def afterEqSep (w : List Char) (idx : Option ℕ) (r : List Char) : LabLine :=
  match r.dropWhile isPySpace with
  | [] => LabLine.nomatch
  | c :: r2 =>
    if c = '=' then
      LabLine.entry (String.mk w) idx (String.mk (r2.dropWhile isPySpace))
    else LabLine.nomatch

def tryEntry (line : List Char) : LabLine :=
  let w := line.takeWhile wordChar
  let rest := line.dropWhile wordChar
  if w.isEmpty then LabLine.nomatch
  else
    match rest with
    | c :: r2 =>
      if c = '[' then
        let ds := r2.takeWhile isDigitChar
        match r2.dropWhile isDigitChar with
        | c2 :: r4 =>
          if c2 = ']' then
            if ds.isEmpty then LabLine.nomatch
            else afterEqSep w (some (digitsVal ds)) r4
          else LabLine.nomatch
        | [] => LabLine.nomatch
      else afterEqSep w Option.none rest
    | [] => afterEqSep w Option.none rest

/-- lab_parser.py lines 80-93: strip the raw line, skip blanks and `#`
comments, try the section pattern `^\[(.*)]$` (whose group is then
stripped), then the line pattern. -/
def classifyLine (raw : String) : LabLine :=
  let line := pyStripList raw.data
  match line with
  | [] => LabLine.blank
  | c :: rest =>
    if c = '#' then LabLine.blank
    else if c = '[' ∧ rest ≠ [] ∧ rest.getLast? = some ']' then
      LabLine.section (pyStrip (String.mk rest.dropLast))
    else tryEntry line

/-- `match.group(3).split('#')[0]`. -/
def beforeHash (s : String) : String :=
  String.mk (s.data.takeWhile (· ≠ '#'))

/-- Loader state: the `current_device` cursor (initially "Global") and
the accumulated dictionary. -/
structure LoadState where
  current_device : String
  data : List ((String × String) × LabValue)
deriving Repr

/-- One iteration of the loader's line loop (lab_parser.py lines 80-105),
including the nested-index handling that creates or replaces the channel
sub-dict. -/
def loadStep (st : LoadState) (raw : String) : LoadState :=
  match classifyLine raw with
  | LabLine.blank => st
  | LabLine.nomatch => st
  | LabLine.section dev => { st with current_device := dev }
  | LabLine.entry param idx vstr =>
    let value := parse_value_string (pyStrip (beforeHash vstr))
    let key := (st.current_device, param)
    match idx with
    | some i =>
      let sub :=
        match alookup st.data key with
        | some (LabValue.chan m) => m
        | _ => []
      { st with data := dictSet st.data key (LabValue.chan (dictSet sub i value)) }
    | Option.none =>
      { st with data := dictSet st.data key (LabValue.scalar value) }

/-- lab_parser.py lines 58-108, `LabFileParser.load`, over the list of
(as yet unstripped) lines of the file. -/
def parser_load (lines : List String) : List ((String × String) × LabValue) :=
  (lines.foldl loadStep { current_device := "Global", data := [] }).data

/-- Sort of the channel indices (`sorted(value.keys())`), paired with
their values. -/
def sortByIdx (m : List (ℕ × PyValue)) : List (ℕ × PyValue) :=
  m.mergeSort fun a b => a.1 ≤ b.1

/-- The lines `save` writes for one parameter (lab_parser.py lines
136-142): `\tparam[idx] = value` per sorted channel index for nested
dicts, else a single `\tparam = value`. -/
def saveParamLines (param : String) : LabValue → List String
  | LabValue.chan m =>
    (sortByIdx m).map fun iv =>
      "\t" ++ param ++ "[" ++ String.mk (natDec iv.1) ++ "] = " ++ pyStr iv.2
  | LabValue.scalar v => ["\t" ++ param ++ " = " ++ pyStr v]

/-- lab_parser.py lines 121-124: group the flat dict by device,
preserving dict insertion order. -/
def organize (data : List ((String × String) × LabValue)) :
    List (String × List (String × LabValue)) :=
  data.foldl
    (fun org kv =>
      let params := (alookup org kv.1.1).getD []
      dictSet org kv.1.1 (dictSet params kv.1.2 kv.2))
    []

/-- lab_parser.py lines 110-148, `LabFileParser.save`, producing the
lines of the written file (each `f.write` ends its line with `\n`;
`save_time` is the wall-clock string). -/
def parser_save (save_time : String)
    (data : List ((String × String) × LabValue)) : List String :=
  ["# Lab Instrument configuration file", "# Saved on " ++ save_time, ""] ++
  (organize data).flatMap fun dp =>
    ("[" ++ dp.1 ++ "]") ::
      ((dp.2.flatMap fun pv => saveParamLines pv.1 pv.2) ++ [""])

/-- Whether a value is a Python float. -/
def PyValue.isFloat : PyValue → Bool
  | .float _ => true
  | _ => false

/-- A trivial driver over a unit state, for exercising the worker alone. -/
def unitDriver : Driver Unit where
  getattr _ := false
  call s _ := (s, .error "stub")
  open_port s _ _ := (s, OpenPortResult.opened)
  close_port s := (s, .ok ())

/-- A worker configuration around the trivial driver. -/
def unitCfg : WorkerCfg Unit := ⟨"Dev", [], unitDriver⟩

/-- A driver whose `open_port` raises an exception the worker does not
catch, as `SpectrumAnalyzer` does: fsv.py's `open_port(ip)` takes one
argument, so the worker's two-argument call raises `TypeError` (and
omicron.py's `open_port` raises the builtin `ConnectionError`, likewise
uncaught). -/
def fsvLikeDriver : Driver Unit where
  getattr _ := false
  call s _ := (s, .error "stub")
  open_port s _ _ :=
    (s, OpenPortResult.otherExn
      "TypeError: open_port() takes 2 positional arguments but 3 were given")
  close_port s := (s, .ok ())

/-- A fresh worker state over the trivial driver. -/
def unitState : WorkerState Unit := ⟨(), [], Option.none⟩

/-- The EcoVario stage profile exactly as labsync_app.py lines 220-231
builds it (`ecovario_keys`). -/
def stage_profile : List (String × Parameter) :=
  [("target_pos", ⟨"target_pos", some "set_position", PyValue.float 0,
      PyValue.float 2530, PyValue.str "mm", PyType.float⟩),
   ("target_vel", ⟨"target_vel", some "set_speed", PyValue.float 0,
      PyValue.float 100, PyValue.str "mm/s", PyType.float⟩),
   ("target_acc", ⟨"target_acc", some "set_acceleration", PyValue.float 0,
      PyValue.float 1000, PyValue.str "mm/s2", PyType.float⟩),
   ("target_deacc", ⟨"target_deacc", some "set_deacceleration", PyValue.float 0,
      PyValue.float 1000, PyValue.str "mm/s2", PyType.float⟩),
   ("current_pos", ⟨"current_pos", some "get_current_position", PyValue.float 0,
      PyValue.float 2530, PyValue.str "mm", PyType.float⟩),
   ("START", ⟨"START", some "start", PyValue.none, PyValue.none, PyValue.none,
      PyType.noneType⟩),
   ("STOP", ⟨"STOP", some "stop", PyValue.none, PyValue.none, PyValue.none,
      PyType.noneType⟩),
   ("HOME", ⟨"HOME", some "home_stage", PyValue.none, PyValue.none,
      PyValue.none, PyType.noneType⟩),
   ("RESET", ⟨"RESET", some "reset_current_error", PyValue.none, PyValue.none,
      PyValue.none, PyType.noneType⟩),
   ("current_error_code", ⟨"current_error_code", some "get_current_error",
      PyValue.none, PyValue.none, PyValue.none, PyType.noneType⟩)]

/-- Worker configuration of the stage worker. -/
def stageCfg : WorkerCfg EcoState := ⟨"EcoVario", stage_profile, ecoDriver⟩

/-- The invariant claimed for the poll machinery: the timer is stopped
exactly when no poll context is live, and otherwise runs at the minimum
interval over all live contexts. -/
def pollInv (st : WorkerState σ) : Prop :=
  st.timer =
    if st.poll_contexts = [] then Option.none
    else some (min_interval st.poll_contexts)

/-- A START_POLL request with an `int`-or-`None` interval value, or a
STOP_POLL request — the request shapes C6 quantifies over. -/
def pollCmd (cmd : DeviceRequest) : Prop :=
  (cmd.cmd_type = RequestType.START_POLL ∧
    (cmd.value = PyValue.none ∨ ∃ n : ℤ, cmd.value = PyValue.int n)) ∨
  cmd.cmd_type = RequestType.STOP_POLL

/-- Serial execution of a request list (requests that would raise out of
the slot leave the state unchanged; the C6 requests never do). -/
def runPoll (cfg : WorkerCfg σ) (st : WorkerState σ) :
    List DeviceRequest → WorkerState σ
  | [] => st
  | c :: cs =>
    match execute_request cfg st c with
    | .ok o => runPoll cfg o.state cs
    | .error _ => runPoll cfg st cs

/-- The write trace a constant-cursor TGA driver produces: a `SETUPCH n`
selector before every command whose channel differs from the fixed
cursor value. -/
def constCursorWrites (c : ℤ) (calls : List (ℤ × String × String)) :
    List String :=
  calls.flatMap fun t =>
    (if t.1 ≠ c then ["SETUPCH" ++ intStr t.1 ++ "\n"] else []) ++
    [t.2.1 ++ " " ++ t.2.2 ++ "\n"]

/-- Printable ASCII (the character repertoire of the verified preset
snapshots; in particular no newlines, tabs or non-ASCII text). -/
def printableAscii (c : Char) : Bool := 32 ≤ c.toNat && c.toNat ≤ 126

/-- A device name that survives the section-line round trip: printable
and `strip`-invariant. -/
def wfDevice (d : String) : Prop :=
  d.data.all printableAscii ∧ pyStrip d = d

/-- A parameter name the loader's `\w+` group can re-read. -/
def wfParam (p : String) : Prop := p ≠ "" ∧ p.data.all wordChar = true

/-- A string value whose rendering parses back to itself: printable,
strip- and quote-strip-invariant, no `#`, not one of the boolean words,
and not accepted by `int()` or `float()`. -/
def wfStr (s : String) : Prop :=
  s ≠ "" ∧ s.data.all printableAscii ∧ pyStrip s = s ∧ pyStripQuotes s = s ∧
  s.data.contains '#' = false ∧
  pyUpper s ≠ "TRUE" ∧ pyUpper s ≠ "ON" ∧ pyUpper s ≠ "FALSE" ∧
  pyUpper s ≠ "OFF" ∧
  pyIntParse s = Option.none ∧ pyFloatParse s = Option.none

/-- A float value inside the model's validity range: terminating decimal
expansion and plain (non-exponent) CPython rendering. -/
def wfFloat (q : ℚ) : Prop :=
  (∃ mk, decExp? q = some mk) ∧
  (q = 0 ∨ (1 / 10 ^ 4 ≤ |q| ∧ |q| < 10 ^ 16))

/-- Scalar values that round-trip. -/
def wfScalar : PyValue → Prop
  | PyValue.bool _ => True
  | PyValue.int _ => True
  | PyValue.str s => wfStr s
  | PyValue.float q => wfFloat q
  | _ => False

/-- Stored values that round-trip: scalars, or nonempty channel maps in
canonical (strictly ascending) index order with round-trippable
scalars. -/
def wfValue : LabValue → Prop
  | LabValue.scalar v => wfScalar v
  | LabValue.chan m =>
    m ≠ [] ∧ m.Chain' (fun a b => a.1 < b.1) ∧ ∀ iv ∈ m, wfScalar iv.2

/-- A cache snapshot that round-trips: distinct keys, well-formed names
and values. -/
def wfData (data : List ((String × String) × LabValue)) : Prop :=
  (data.map Prod.fst).Nodup ∧
  ∀ kv ∈ data, wfDevice kv.1.1 ∧ wfParam kv.1.2 ∧ wfValue kv.2

/-- Lookup through the grouped (device → parameter → value) map. -/
def alookup2 (org : List (String × List (String × LabValue)))
    (d p : String) : Option LabValue :=
  (alookup org d).bind fun ps => alookup ps p

end LabSync

namespace LabSync

/-- C8: for every list of byte values, the stage checksum function returns a
byte `c` (i.e. `c < 256`) such that `(sum(frame) + c) & 0xFF == 0`. -/
theorem C8_checksum_correct (frame : List ℕ) :
    calculate_checksum frame < 256 ∧
    (frame.sum + calculate_checksum frame) % 256 = 0 := by
  have h : calculate_checksum frame
      = ((-(((frame.sum : ℤ)) % 256) - 1 + 1) % 256).toNat := rfl
  rw [h]
  constructor
  · omega
  · omega

/-- C3: evaluating the write path at the concrete command
`_write_sdo(0x01, 0x6040, 0x003F)` (the `start` control word) on a
connected stage: the frame on the wire is the 9-byte
`[01, 22, 40, 60, 3F, 00, 00, 00]` plus checksum `FE` — index 4 holds
the low value byte `0x3F`, not the 0x00 padding byte the claim
describes, and the frame is one byte shorter than the claimed 10-byte
layout.  The read-request frame, by contrast, does carry 0x00 at
index 4. -/
theorem C3_write_frame_has_no_padding_byte :
    (eco_write_sdo
        { status := ConnectionStatus.CONNECTED, handle := EcoHandle.open_,
          written := [], readQueue := [[0]] } 0x01 0x6040 0x3F).1.written
      = [[0x01, 0x22, 0x40, 0x60, 0x3F, 0x00, 0x00, 0x00, 0xFE]] ∧
    ([0x01, 0x22, 0x40, 0x60, 0x3F, 0x00, 0x00, 0x00, 0xFE] : List ℕ).length
      = 9 ∧
    ([0x01, 0x22, 0x40, 0x60, 0x3F, 0x00, 0x00, 0x00, 0xFE] : List ℕ).get? 4
      = some 0x3F ∧
    (eco_read_sdo
        { status := ConnectionStatus.CONNECTED, handle := EcoHandle.open_,
          written := [], readQueue := [List.replicate 20 0] }
        0x01 0x6063).1.written
      = [[0x01, 0x40, 0x63, 0x60, 0x00, 0x00, 0x00, 0x00, 0x00, 0xFC]] := by
  refine ⟨by decide, by decide, by decide, by decide⟩

/-- No run of the reset wait loop produces a raised timeout. -/
theorem resetLoop_never_raises (deadline : ℕ) :
    ∀ now trace, resetLoop deadline now trace ≠ ResetOutcome.raisedTimeout := by
  intro now trace
  induction trace generalizing now with
  | nil => simp only [resetLoop]; split <;> simp
  | cons head tail ih =>
    simp only [resetLoop]
    split
    · split
      · simp
      · exact ih _
    · simp

/-- C5: `reset_controller` writes `"?RsC"` and polls for `"!RsC>"` until
the fixed 10 s deadline; but when the deadline elapses without the reply
the loop falls through and the method returns normally — on no reply
trace does it raise a timeout error. -/
theorem C5_reset_timeout_returns_normally :
    reset_controller [("x", 101)] = (["?RsC"], ResetOutcome.timedOutReturn) ∧
    reset_controller [("!RsC>", 1)] = (["?RsC"], ResetOutcome.gotReply) ∧
    ∀ trace, (reset_controller trace).2 ≠ ResetOutcome.raisedTimeout := by
  refine ⟨by decide, by decide, fun trace => ?_⟩
  exact resetLoop_never_raises 100 0 trace

/-- C4 counterexample: after `open_port` (cursor 1), two consecutive
`set_waveform(2, "square")` calls each emit a `SETUPCH2` selector —
although the second call's target channel equals the channel of the most
recent command, so the claimed cursor discipline predicts no second
selector.  The source never assigns `current_channel` after a write. -/
theorem C4_counterexample :
    (tgaRun tgaOpened [(2, "WAVE", "square"), (2, "WAVE", "square")]).written
      = ["SETUPCH2\n", "WAVE square\n", "SETUPCH2\n", "WAVE square\n"] ∧
    specCursorRun 1 [(2, "WAVE", "square"), (2, "WAVE", "square")]
      = ["SETUPCH2\n", "WAVE square\n", "WAVE square\n"] ∧
    (tgaRun tgaOpened [(2, "WAVE", "square"), (2, "WAVE", "square")]).written
      ≠ specCursorRun 1 [(2, "WAVE", "square"), (2, "WAVE", "square")] := by
  refine ⟨by decide, by decide, by decide⟩

/-- On a connected driver, running any command list leaves the cursor
and status unchanged and appends the constant-cursor write trace. -/
theorem tgaRun_const_cursor (calls : List (ℤ × String × String)) :
    ∀ st : TgaState, st.status = ConnectionStatus.CONNECTED →
      tgaRun st calls =
        { status := ConnectionStatus.CONNECTED,
          current_channel := st.current_channel,
          written := st.written ++ constCursorWrites st.current_channel calls } := by
  induction calls with
  | nil =>
    intro st h
    simp only [tgaRun, constCursorWrites, List.flatMap_nil, List.append_nil]
    cases st
    simp_all
  | cons head tail ih =>
    intro st h
    obtain ⟨ch, what, value⟩ := head
    have hw : (tga_write st ch what value).status = ConnectionStatus.CONNECTED ∧
        (tga_write st ch what value).current_channel = st.current_channel ∧
        (tga_write st ch what value).written = st.written ++
          ((if ch ≠ st.current_channel then ["SETUPCH" ++ intStr ch ++ "\n"]
            else []) ++ [what ++ " " ++ value ++ "\n"]) := by
      simp only [tga_write, h, if_pos]
      by_cases hc : ch = st.current_channel <;> simp [hc, h]
    simp only [tgaRun]
    rw [ih _ hw.1, hw.2.1, hw.2.2]
    simp [constCursorWrites]

/-- C4 (amended): the `current_channel` cursor is initialized to 1 and
never reassigned, so a `SETUPCH n` selector is written before a
parameter command iff `n` differs from that constant cursor value (1
after `open_port`) — not iff it differs from the most recent command's
channel.  The spec's end-to-end scenario 3 nevertheless holds:
`set_waveform(1, "sine")` then `set_waveform(2, "square")` writes
exactly one `SETUPCH2` and no `SETUPCH1`. -/
theorem C4_selector_iff_differs_from_constant_cursor :
    (∀ (st : TgaState) calls, st.status = ConnectionStatus.CONNECTED →
       (tgaRun st calls).written
         = st.written ++ constCursorWrites st.current_channel calls ∧
       (tgaRun st calls).current_channel = st.current_channel) ∧
    (tga_set_waveform (tga_set_waveform tgaOpened 1 "sine").1 2 "square").1.written
      = ["WAVE sine\n", "SETUPCH2\n", "WAVE square\n"] ∧
    ((tga_set_waveform (tga_set_waveform tgaOpened 1 "sine").1 2
        "square").1.written.count "SETUPCH2\n" = 1) ∧
    ((tga_set_waveform (tga_set_waveform tgaOpened 1 "sine").1 2
        "square").1.written.count "SETUPCH1\n" = 0) := by
  refine ⟨fun st calls h => ?_, by decide, by decide, by decide⟩
  rw [tgaRun_const_cursor calls st h]
  exact ⟨rfl, rfl⟩

/-- C4 witness: the amended theorem applied at a concrete connected
driver and call list. -/
theorem C4_witness :
    (tgaRun tgaOpened [(2, "WAVE", "square")]).written
      = tgaOpened.written ++ constCursorWrites tgaOpened.current_channel
          [(2, "WAVE", "square")] :=
  ((C4_selector_iff_differs_from_constant_cursor).1 tgaOpened
    [(2, "WAVE", "square")] rfl).1

/-- C7 counterexample: at stored `0.0` and new `0.0001` the difference
is exactly 1e-4, which `math.isclose(..., abs_tol=1e-4)` counts as close
(`≤`), so the code reports "unchanged" — while the claim's strict
`|a-b| < 1e-4` condition says "changed". -/
theorem C7_counterexample :
    check_values (PyValue.float 0) (PyValue.float (1 / 10 ^ 4)) = false ∧
    specUnchanged (PyValue.float 0) (PyValue.float (1 / 10 ^ 4)) = false := by
  constructor
  · simp only [check_values, mathIsClose]
    rw [if_neg (by simp)]
    simp only [Bool.not_eq_false', decide_eq_true_eq]
    rw [show |(0 : ℚ) - 1 / 10 ^ 4| = 1 / 10 ^ 4 by rw [abs_sub_comm]; norm_num]
    exact le_max_right _ _
  · simp only [specUnchanged, decide_eq_false_iff_not, not_lt]
    rw [show |(0 : ℚ) - 1 / 10 ^ 4| = 1 / 10 ^ 4 by rw [abs_sub_comm]; norm_num]

/-- C7 (amended): the comparison reports "unchanged" exactly when the
stored value is not `None` and either both values are floats with
`|a-b| ≤ max(1e-9 * max(|a|,|b|), 1e-4)` (the `math.isclose` condition,
inclusive and with the default relative tolerance still active), or the
pair is not float-float and the values are equal under Python `==`
(which equates ints, bools and floats of equal numeric value); a `None`
stored value always counts as changed.  On an actual difference the
cache (modelled from the spec) overwrites and notifies exactly once,
otherwise it neither overwrites nor notifies. -/
theorem C7_amended_unchanged_characterisation :
    (∀ v1 v2 : PyValue, check_values v1 v2 = false ↔
       (v1 ≠ PyValue.none ∧
         ((∃ a b, v1 = PyValue.float a ∧ v2 = PyValue.float b ∧
             |a - b| ≤ max (1 / 10 ^ 9 * max |a| |b|) (1 / 10 ^ 4)) ∨
          ((v1.isFloat = false ∨ v2.isFloat = false) ∧ pyEq v1 v2 = true)))) ∧
    (∀ d p stored v, (cache_set_value [((d, p), stored)] d p v).2
        = if check_values stored v then 1 else 0) := by
  constructor
  · intro v1 v2
    cases v1 <;> cases v2 <;>
      simp [check_values, mathIsClose, pyEq, PyValue.isFloat, PyValue.toNum]
    rw [lt_iff_not_le]
    tauto
  · intro d p stored v
    simp only [cache_set_value, List.find?]
    simp only [decide_True, Bool.true_and]
    split <;> simp_all

/-- The generic SET/POLL dispatch emits exactly one result on every
path. -/
theorem set_poll_dispatch_one (cfg : WorkerCfg σ) (st : WorkerState σ)
    (cmd : DeviceRequest) (isSet : Bool) :
    (set_poll_dispatch cfg st cmd isSet).results.length = 1 := by
  unfold set_poll_dispatch
  repeat' split
  all_goals try rfl
  all_goals (dsimp only; repeat' split)
  all_goals rfl

/-- `_disconnect_device` emits one stale-poll result per live context
plus one close result. -/
theorem disconnect_device_len (cfg : WorkerCfg σ) (st : WorkerState σ)
    (cmd : DeviceRequest) :
    (disconnect_device cfg st cmd).results.length
      = st.poll_contexts.length + 1 := by
  unfold disconnect_device
  dsimp only
  split <;> simp

/-- START_POLL with an `int`-or-`None` interval value emits no result. -/
theorem start_poll_zero (cfg : WorkerCfg σ) (st : WorkerState σ)
    (dev : String) (par : Option String) (v : PyValue)
    (hv : v = PyValue.none ∨ ∃ n : ℤ, v = PyValue.int n) :
    ∃ out, execute_request cfg st ⟨dev, par, RequestType.START_POLL, v⟩
        = Except.ok out ∧ out.results = [] := by
  rcases hv with hv | ⟨n, hv⟩ <;> subst hv
  · exact ⟨_, rfl, rfl⟩
  · by_cases hn : n = 0
    · subst hn; exact ⟨_, rfl, rfl⟩
    · have ht : pyTruthy (PyValue.int n) = true := by simp [pyTruthy, hn]
      simp only [execute_request, ht, if_true]
      exact ⟨_, rfl, rfl⟩

/-- C1 counterexample: a START_POLL request emits zero results (not
one), a DISCONNECT while one poll context is live emits two, and a
CONNECT with a `(port, baud)` pair against a driver whose `open_port`
raises an exception other than `DeviceConnectionError` (fsv.py's
`TypeError`, omicron.py's `ConnectionError`) escapes the slot with zero
results emitted. -/
theorem C1_counterexample :
    (execute_request unitCfg unitState
        ⟨"Dev", some "p", RequestType.START_POLL, PyValue.int 500⟩).map
      (fun o => o.results.length) = Except.ok 0 ∧
    (execute_request unitCfg
        { unitState with poll_contexts :=
            [(⟨"Dev", some "p", RequestType.POLL, PyValue.none⟩, 500)] }
        ⟨"Dev", Option.none, RequestType.DISCONNECT, PyValue.none⟩).map
      (fun o => o.results.length) = Except.ok 2 ∧
    execute_request (⟨"FSV", [], fsvLikeDriver⟩ : WorkerCfg Unit) unitState
        ⟨"FSV", Option.none, RequestType.CONNECT,
          PyValue.tuple2 (PyValue.str "TCPIP::10.0.0.2") (PyValue.int 9600)⟩
      = Except.error
        "TypeError: open_port() takes 2 positional arguments but 3 were given"
      := by
  exact ⟨rfl, rfl, rfl⟩

/-- C1 (amended): how many `RequestResult`s one `execute_request` call
emits, by request kind — SET and POLL always emit exactly one; CONNECT
(with a `(port, baud)` pair) exactly one when `open_port` raises at most
`DeviceConnectionError`, but zero (the exception escapes the slot) when
`open_port` raises any other exception type; DISCONNECT and QUIT one
plus one per live poll context; and START_POLL / STOP_POLL none. -/
theorem C1_amended_result_counts (cfg : WorkerCfg σ) (st : WorkerState σ)
    (cmd : DeviceRequest) :
    (cmd.cmd_type = RequestType.SET ∨ cmd.cmd_type = RequestType.POLL →
       ∃ out, execute_request cfg st cmd = Except.ok out ∧
         out.results.length = 1) ∧
    (∀ a b, cmd.value = PyValue.tuple2 a b →
       cmd.cmd_type = RequestType.CONNECT →
       (∀ d2 e, cfg.driver.open_port st.dstate a b
           ≠ (d2, OpenPortResult.otherExn e)) →
       ∃ out, execute_request cfg st cmd = Except.ok out ∧
         out.results.length = 1) ∧
    (∀ a b d2 e, cmd.value = PyValue.tuple2 a b →
       cmd.cmd_type = RequestType.CONNECT →
       cfg.driver.open_port st.dstate a b = (d2, OpenPortResult.otherExn e) →
       execute_request cfg st cmd = Except.error e) ∧
    (cmd.cmd_type = RequestType.DISCONNECT ∨ cmd.cmd_type = RequestType.QUIT →
       ∃ out, execute_request cfg st cmd = Except.ok out ∧
         out.results.length = st.poll_contexts.length + 1) ∧
    (cmd.cmd_type = RequestType.STOP_POLL ∨
       (cmd.cmd_type = RequestType.START_POLL ∧
         (cmd.value = PyValue.none ∨ ∃ n : ℤ, cmd.value = PyValue.int n)) →
       ∃ out, execute_request cfg st cmd = Except.ok out ∧
         out.results.length = 0) := by
  obtain ⟨dev, par, ct, val⟩ := cmd
  refine ⟨?_, ?_, ?_, ?_, ?_⟩
  · rintro (h | h) <;> (simp only at h; subst h) <;>
      exact ⟨_, rfl, set_poll_dispatch_one ..⟩
  · intro a b hv h hne
    simp only at h hv
    subst h; subst hv
    simp only [execute_request, connect_device]
    rcases hop : cfg.driver.open_port st.dstate a b with ⟨d, r⟩
    cases r with
    | opened => simp
    | connError e => simp
    | otherExn e => exact absurd hop (hne d e)
  · intro a b d2 e hv h hop
    simp only at h hv
    subst h; subst hv
    simp only [execute_request, connect_device]
    rw [hop]
  · rintro (h | h) <;> (simp only at h; subst h)
    · exact ⟨_, rfl, disconnect_device_len ..⟩
    · refine ⟨_, rfl, ?_⟩
      simp only [execute_request]
      exact disconnect_device_len ..
  · rintro (h | ⟨h, hv⟩) <;> (simp only at h; subst h)
    · simp only [execute_request]
      cases par
      · exact ⟨_, rfl, rfl⟩
      · refine ⟨_, rfl, ?_⟩
        split <;> rfl
    · simp only at hv
      obtain ⟨out, ho, hr⟩ := start_poll_zero cfg st dev par val hv
      exact ⟨out, ho, by simp [hr]⟩

/-- C1 witness: the amended theorem applied to a concrete SET request
and to a concrete CONNECT request whose `open_port` does not raise a
foreign exception. -/
theorem C1_witness :
    (∃ out, execute_request unitCfg unitState
        ⟨"Dev", some "p", RequestType.SET, PyValue.none⟩ = Except.ok out ∧
      out.results.length = 1) ∧
    (∃ out, execute_request unitCfg unitState
        ⟨"Dev", Option.none, RequestType.CONNECT,
          PyValue.tuple2 (PyValue.str "COM1") (PyValue.int 9600)⟩
        = Except.ok out ∧
      out.results.length = 1) :=
  ⟨(C1_amended_result_counts unitCfg unitState
      ⟨"Dev", some "p", RequestType.SET, PyValue.none⟩).1 (Or.inl rfl),
   (C1_amended_result_counts unitCfg unitState
      ⟨"Dev", Option.none, RequestType.CONNECT,
        PyValue.tuple2 (PyValue.str "COM1") (PyValue.int 9600)⟩).2.1
     (PyValue.str "COM1") (PyValue.int 9600) rfl rfl
     (fun _ _ he => OpenPortResult.noConfusion (congrArg Prod.snd he))⟩

/-- `pyLt` on two numeric values is the numeric comparison. -/
theorem pyLt_num {a b : PyValue} {x y : ℚ} (ha : a.toNum = some x)
    (hb : b.toNum = some y) : pyLt a b = Except.ok (decide (x < y)) := by
  unfold pyLt
  rw [ha, hb]

/-- `Parameter.validate` on a numeric parameter with numeric bounds and a
numeric value evaluates both bound comparisons and never raises. -/
theorem validate_numeric {pd : Parameter} {v : PyValue} {x lo hi : ℚ}
    (hdt : pd.data_type = PyType.int ∨ pd.data_type = PyType.float)
    (hlo : pd.min_value.toNum = some lo) (hhi : pd.max_value.toNum = some hi)
    (hv : v.toNum = some x) :
    pd.validate v = Except.ok (if x < lo ∨ hi < x then false else true) := by
  have hvn : v ≠ PyValue.none := by
    intro h; subst h; simp [PyValue.toNum] at hv
  unfold Parameter.validate
  rw [if_pos ⟨hdt, Or.inr hvn⟩]
  rw [show pyLt v pd.min_value = Except.ok (decide (x < lo)) from pyLt_num hv hlo]
  rw [show pyGt v pd.max_value = Except.ok (decide (hi < x)) from pyLt_num hhi hv]
  by_cases h1 : x < lo
  · simp only [h1, true_or, if_true, decide_eq_true_eq, decide_True]
    rfl
  · by_cases h2 : hi < x <;>
      simp only [h1, h2, or_self, or_false, false_or, if_true, if_false,
        decide_True, decide_False] <;> rfl

/-- C2: for a SET request on a parameter with numeric type, numeric
bounds and a numeric value, a value with `min ≤ x ≤ max` (in particular
exactly at either bound) passes validation and produces exactly the one
driver invocation; a value outside the bounds produces no driver call
and a single TASK result whose error message is the validation message,
which contains the rendered `min_value` and `max_value` — so validation
always happens before any driver call. -/
theorem C2_validation_boundary (cfg : WorkerCfg σ) (st : WorkerState σ)
    (dev p m : String) (pd : Parameter) (v : PyValue) (x lo hi : ℚ)
    (hlook : lookupParam cfg.profile (some p) = some pd)
    (hm : pd.method = some m) (hm2 : m ≠ "")
    (hga : cfg.driver.getattr m = true)
    (hdt : pd.data_type = PyType.int ∨ pd.data_type = PyType.float)
    (hlo : pd.min_value.toNum = some lo)
    (hhi : pd.max_value.toNum = some hi)
    (hv : v.toNum = some x) :
    (lo ≤ x ∧ x ≤ hi →
      ∃ out, execute_request cfg st ⟨dev, some p, RequestType.SET, v⟩
          = Except.ok out ∧
        out.calls = [DriverCall.call1 m v] ∧ out.results.length = 1) ∧
    (x < lo ∨ hi < x →
      ∃ out, execute_request cfg st ⟨dev, some p, RequestType.SET, v⟩
          = Except.ok out ∧
        out.calls = [] ∧
        out.results = [⟨cfg.device_id,
          (⟨dev, some p, RequestType.SET, v⟩ : DeviceRequest).id, PyValue.none,
          some (validationFailMsg (some p) v pd), some ErrorType.TASK⟩] ∧
        ∃ pre post, validationFailMsg (some p) v pd
          = pre ++ pyStr pd.min_value ++ " - " ++ pyStr pd.max_value ++ post) := by
  have hvn : v ≠ PyValue.none := by
    intro h; subst h; simp [PyValue.toNum] at hv
  have hmf : methodFalsy pd = false := by
    simp [methodFalsy, hm, hm2]
  have hcall : mkSetCall m v = DriverCall.call1 m v := by
    cases v <;> simp [PyValue.toNum] at hv <;> rfl
  constructor
  · rintro ⟨h1, h2⟩
    have hval : pd.validate v = Except.ok true := by
      rw [validate_numeric hdt hlo hhi hv, if_neg (by push_neg; exact ⟨h1, h2⟩)]
    simp only [execute_request, set_poll_dispatch, hlook, hmf, hval,
      Bool.false_eq_true, if_false, if_true, hm, Option.getD_some, hga, hcall]
    rcases hc : cfg.driver.call st.dstate (DriverCall.call1 m v) with ⟨d, r⟩
    cases r <;> simp
  · intro hout
    have hval : pd.validate v = Except.ok false := by
      rw [validate_numeric hdt hlo hhi hv, if_pos hout]
    simp only [execute_request, set_poll_dispatch, hlook, hmf, hval,
      Bool.false_eq_true, if_false]
    refine ⟨_, rfl, rfl, rfl, ?_⟩
    exact ⟨_, "!", rfl⟩

/-- C2 witness: a SET of `target_pos` to exactly the maximum bound
2530.0 on the stage profile passes validation and invokes
`set_position`. -/
theorem C2_witness :
    ∃ out, execute_request stageCfg ⟨ecoInit, [], Option.none⟩
        ⟨"EcoVario", some "target_pos", RequestType.SET, PyValue.float 2530⟩
        = Except.ok out ∧
      out.calls = [DriverCall.call1 "set_position" (PyValue.float 2530)] ∧
      out.results.length = 1 :=
  (C2_validation_boundary stageCfg ⟨ecoInit, [], Option.none⟩ "EcoVario"
      "target_pos" "set_position" _ (PyValue.float 2530) 2530 0 2530
      rfl rfl (by decide) rfl (Or.inr rfl) rfl rfl rfl).1
    ⟨by norm_num, le_refl _⟩

/-- Every guarded EcoConnect method is a pure no-op returning `None`
when the driver is not CONNECTED. -/
theorem ecoCall_disconnected (st : EcoState)
    (hst : st.status ≠ ConnectionStatus.CONNECTED) :
    (∀ v, ecoCall st (DriverCall.call1 "set_position" v)
            = (st, Except.ok PyValue.none) ∧
          ecoCall st (DriverCall.call1 "set_speed" v)
            = (st, Except.ok PyValue.none) ∧
          ecoCall st (DriverCall.call1 "set_acceleration" v)
            = (st, Except.ok PyValue.none) ∧
          ecoCall st (DriverCall.call1 "set_deacceleration" v)
            = (st, Except.ok PyValue.none) ∧
          ecoCall st (DriverCall.call1 "set_control_word" v)
            = (st, Except.ok PyValue.none)) ∧
    (ecoCall st (DriverCall.call0 "start") = (st, Except.ok PyValue.none) ∧
     ecoCall st (DriverCall.call0 "stop") = (st, Except.ok PyValue.none) ∧
     ecoCall st (DriverCall.call0 "reset_current_error")
       = (st, Except.ok PyValue.none) ∧
     ecoCall st (DriverCall.call0 "get_current_position")
       = (st, Except.ok PyValue.none) ∧
     ecoCall st (DriverCall.call0 "get_current_error")
       = (st, Except.ok PyValue.none) ∧
     ecoCall st (DriverCall.call0 "get_status_word")
       = (st, Except.ok PyValue.none)) := by
  constructor
  · intro v
    refine ⟨?_, ?_, ?_, ?_, ?_⟩ <;>
      simp [ecoCall, eco_set_position, eco_set_speed, eco_set_acceleration,
        eco_set_deacceleration, eco_set_control_word, ecoScaledSet, hst]
  · refine ⟨?_, ?_, ?_, ?_, ?_, ?_⟩ <;>
      simp [ecoCall, eco_start, eco_stop, eco_reset_current_error, ecoFire,
        eco_get_current_position, eco_get_current_error, eco_get_status_word,
        hst]

/-- C10 counterexample: a SET of the `HOME` fire command against a
freshly constructed (disconnected, no handle) stage driver: `home_stage`
has no connection guard, attempts its first `_write_sdo` on the `None`
handle, raises, and the worker answers with a TASK error result — not a
success result. -/
theorem C10_counterexample :
    (execute_request stageCfg ⟨ecoInit, [], Option.none⟩
        ⟨"EcoVario", some "HOME", RequestType.SET, PyValue.none⟩).map
      (fun o => (o.results.map fun r => (r.is_success, r.error, r.error_type),
                 o.calls))
      = Except.ok ([(false, some ecoAttrError, some ErrorType.TASK)],
                   [DriverCall.call0 "home_stage"]) := by
  rfl

/-- C10 (amended): every EcoConnect setter, getter and fire command
EXCEPT `home_stage` is silently a no-op when the status is not
CONNECTED (setters perform no I/O and return `None`, getters return
`None`), so a valid SET or POLL through one of them against a
disconnected stage yields a single success result (the SET result
carrying the requested value, the POLL result carrying `None`);
`home_stage` alone has no guard and raises on the absent handle. -/
theorem C10_amended_disconnected_noop (st : EcoState)
    (hst : st.status ≠ ConnectionStatus.CONNECTED) :
    (∀ v, ecoCall st (DriverCall.call1 "set_position" v)
            = (st, Except.ok PyValue.none) ∧
          ecoCall st (DriverCall.call1 "set_speed" v)
            = (st, Except.ok PyValue.none) ∧
          ecoCall st (DriverCall.call1 "set_acceleration" v)
            = (st, Except.ok PyValue.none) ∧
          ecoCall st (DriverCall.call1 "set_deacceleration" v)
            = (st, Except.ok PyValue.none) ∧
          ecoCall st (DriverCall.call1 "set_control_word" v)
            = (st, Except.ok PyValue.none)) ∧
    (ecoCall st (DriverCall.call0 "start") = (st, Except.ok PyValue.none) ∧
     ecoCall st (DriverCall.call0 "stop") = (st, Except.ok PyValue.none) ∧
     ecoCall st (DriverCall.call0 "reset_current_error")
       = (st, Except.ok PyValue.none) ∧
     ecoCall st (DriverCall.call0 "get_current_position")
       = (st, Except.ok PyValue.none) ∧
     ecoCall st (DriverCall.call0 "get_current_error")
       = (st, Except.ok PyValue.none) ∧
     ecoCall st (DriverCall.call0 "get_status_word")
       = (st, Except.ok PyValue.none)) ∧
    (∀ wst : WorkerState EcoState, wst.dstate = st → ∀ x : ℚ,
       0 ≤ x → x ≤ 2530 →
       execute_request stageCfg wst
           ⟨"EcoVario", some "target_pos", RequestType.SET, PyValue.float x⟩
         = Except.ok ⟨wst, [⟨"EcoVario", "SET_EcoVario_target_pos",
             PyValue.float x, Option.none, Option.none⟩],
             [DriverCall.call1 "set_position" (PyValue.float x)]⟩) ∧
    (∀ wst : WorkerState EcoState, wst.dstate = st →
       execute_request stageCfg wst
           ⟨"EcoVario", some "current_pos", RequestType.POLL, PyValue.none⟩
         = Except.ok ⟨wst, [⟨"EcoVario", "POLL_EcoVario_current_pos",
             PyValue.none, Option.none, Option.none⟩],
             [DriverCall.call0 "get_current_position"]⟩) ∧
    ecoCall ecoInit (DriverCall.call0 "home_stage")
      = (ecoInit, Except.error ecoAttrError) := by
  refine ⟨(ecoCall_disconnected st hst).1, (ecoCall_disconnected st hst).2,
    ?_, ?_, rfl⟩
  · intro wst hw x h0 h1
    have hval : (⟨"target_pos", some "set_position", PyValue.float 0,
        PyValue.float 2530, PyValue.str "mm", PyType.float⟩ : Parameter).validate
          (PyValue.float x) = Except.ok true := by
      rw [@validate_numeric ⟨"target_pos", some "set_position", PyValue.float 0,
            PyValue.float 2530, PyValue.str "mm", PyType.float⟩
          (PyValue.float x) x 0 2530 (Or.inr rfl) rfl rfl rfl,
        if_neg (by push_neg; exact ⟨h0, h1⟩)]
    have hdrv : stageCfg.driver.call wst.dstate
        (DriverCall.call1 "set_position" (PyValue.float x))
        = (wst.dstate, Except.ok PyValue.none) := by
      rw [hw]
      exact ((ecoCall_disconnected st hst).1 (PyValue.float x)).1
    simp only [execute_request, set_poll_dispatch]
    rw [show lookupParam stageCfg.profile (some "target_pos")
        = some ⟨"target_pos", some "set_position", PyValue.float 0,
            PyValue.float 2530, PyValue.str "mm", PyType.float⟩ from rfl]
    dsimp only
    simp only [show methodFalsy ⟨"target_pos", some "set_position",
        PyValue.float 0, PyValue.float 2530, PyValue.str "mm",
        PyType.float⟩ = false from rfl, Bool.false_eq_true, if_false, hval]
    dsimp only [Option.getD_some, mkSetCall]
    simp only [show (stageCfg.driver.getattr "set_position") = true from rfl,
      if_true, hdrv]
    rfl
  · intro wst hw
    have hdrv : stageCfg.driver.call wst.dstate
        (DriverCall.call0 "get_current_position")
        = (wst.dstate, Except.ok PyValue.none) := by
      rw [hw]
      exact ((ecoCall_disconnected st hst).2).2.2.2.1
    simp only [execute_request, set_poll_dispatch]
    rw [show lookupParam stageCfg.profile (some "current_pos")
        = some ⟨"current_pos", some "get_current_position", PyValue.float 0,
            PyValue.float 2530, PyValue.str "mm", PyType.float⟩ from rfl]
    dsimp only
    simp only [show methodFalsy ⟨"current_pos", some "get_current_position",
        PyValue.float 0, PyValue.float 2530, PyValue.str "mm",
        PyType.float⟩ = false from rfl, Bool.false_eq_true, if_false]
    dsimp only [Option.getD_some]
    simp only [show (stageCfg.driver.getattr "get_current_position") = true
        from rfl, if_true, hdrv]
    rfl

/-- C10 witness: the amended theorem at the fresh disconnected driver,
with a SET of `target_pos = 100.0`. -/
theorem C10_witness :
    execute_request stageCfg ⟨ecoInit, [], Option.none⟩
        ⟨"EcoVario", some "target_pos", RequestType.SET, PyValue.float 100⟩
      = Except.ok ⟨⟨ecoInit, [], Option.none⟩,
          [⟨"EcoVario", "SET_EcoVario_target_pos", PyValue.float 100,
            Option.none, Option.none⟩],
          [DriverCall.call1 "set_position" (PyValue.float 100)]⟩ :=
  (C10_amended_disconnected_noop ecoInit (by decide)).2.2.1
    ⟨ecoInit, [], Option.none⟩ rfl 100 (by norm_num) (by norm_num)

/-- The context list produced by a START_POLL is never empty: either a
matching context already existed, or one was just appended. -/
theorem rawCtxs_ne (st : WorkerState σ) (dev : String) (par : Option String)
    (i : ℤ) :
    (if st.poll_contexts.any (fun cx => cx.1.parameter = par) then
        st.poll_contexts
      else st.poll_contexts ++
        [(⟨dev, par, RequestType.POLL, PyValue.none⟩, i)]) ≠ [] := by
  split
  · next h => intro he; rw [he] at h; simp at h
  · simp

/-- Closed form of a START_POLL execution once the interval extraction
is known: no result, context added iff no context with the same
parameter exists, timer re-armed at the minimum interval. -/
theorem start_poll_exec (cfg : WorkerCfg σ) (st : WorkerState σ)
    (dev : String) (par : Option String) (v : PyValue) (i : ℤ)
    (hi : (if pyTruthy v = true then pyToInt v else pure 500) = Except.ok i) :
    execute_request cfg st ⟨dev, par, RequestType.START_POLL, v⟩
      = Except.ok ⟨⟨st.dstate,
          (if st.poll_contexts.any (fun cx => cx.1.parameter = par) then
              st.poll_contexts
            else st.poll_contexts ++
              [(⟨dev, par, RequestType.POLL, PyValue.none⟩, i)]),
          some (min_interval
            (if st.poll_contexts.any (fun cx => cx.1.parameter = par) then
                st.poll_contexts
              else st.poll_contexts ++
                [(⟨dev, par, RequestType.POLL, PyValue.none⟩, i)]))⟩,
          [], []⟩ := by
  simp only [execute_request]
  by_cases ht : pyTruthy v = true
  · rw [if_pos ht] at hi
    rw [if_pos ht, hi]
    simp only [bind, Except.bind]
    rw [if_pos (rawCtxs_ne st dev par i)]
  · rw [if_neg ht] at hi
    have : i = 500 := by
      have h2 := hi
      simp only [pure, Except.pure, Except.ok.injEq] at h2
      omega
    subst this
    rw [if_neg ht]
    simp only [pure, Except.pure, bind, Except.bind]
    rw [if_pos (rawCtxs_ne st dev par 500)]

/-- An `int`-or-`None` START_POLL value always yields an interval
(`int(cmd.value) if cmd.value else 500`). -/
theorem interval_ok (v : PyValue)
    (hv : v = PyValue.none ∨ ∃ n : ℤ, v = PyValue.int n) :
    ∃ i, (if pyTruthy v = true then pyToInt v else pure 500)
      = Except.ok i := by
  rcases hv with hv | ⟨n, hv⟩ <;> subst hv
  · exact ⟨500, rfl⟩
  · by_cases hn : n = 0
    · subst hn; exact ⟨500, rfl⟩
    · refine ⟨n, ?_⟩
      rw [if_pos (by simp [pyTruthy, hn])]
      rfl

/-- START_POLL preserves the timer/min-interval invariant and is a
context-set no-op when a context for the parameter already exists. -/
theorem start_poll_inv (cfg : WorkerCfg σ) (st : WorkerState σ)
    (dev : String) (par : Option String) (v : PyValue)
    (hv : v = PyValue.none ∨ ∃ n : ℤ, v = PyValue.int n) :
    ∃ out, execute_request cfg st ⟨dev, par, RequestType.START_POLL, v⟩
        = Except.ok out ∧ pollInv out.state ∧
      (st.poll_contexts.any (fun cx => cx.1.parameter = par) = true →
        out.state.poll_contexts = st.poll_contexts) := by
  obtain ⟨i, hi⟩ := interval_ok v hv
  refine ⟨_, start_poll_exec cfg st dev par v i hi, ?_, ?_⟩
  · simp only [pollInv]
    rw [if_neg (rawCtxs_ne st dev par i)]
  · intro h
    simp only [h, if_true]

/-- STOP_POLL preserves the timer/min-interval invariant. -/
theorem stop_poll_inv (cfg : WorkerCfg σ) (st : WorkerState σ)
    (dev : String) (par : Option String) (v : PyValue) :
    ∃ out, execute_request cfg st ⟨dev, par, RequestType.STOP_POLL, v⟩
        = Except.ok out ∧ pollInv out.state := by
  cases par with
  | none => exact ⟨_, rfl, by simp [pollInv]⟩
  | some p =>
    refine ⟨_, rfl, ?_⟩
    simp only [execute_request]
    by_cases hc : (st.poll_contexts.filter fun cx =>
        cx.1.parameter ≠ some p) = []
    · rw [if_pos hc]
      unfold pollInv
      dsimp only
      rw [if_pos hc]
    · rw [if_neg hc]
      unfold pollInv
      dsimp only
      rw [if_neg hc]

/-- One poll-management step preserves the invariant. -/
theorem poll_step_inv (cfg : WorkerCfg σ) (st : WorkerState σ)
    (cmd : DeviceRequest) (hcmd : pollCmd cmd) :
    ∃ out, execute_request cfg st cmd = Except.ok out ∧ pollInv out.state := by
  obtain ⟨dev, par, ct, val⟩ := cmd
  rcases hcmd with ⟨hct, hval⟩ | hct <;> simp only at hct <;> subst hct
  · obtain ⟨out, ho, hi, _⟩ := start_poll_inv cfg st dev par val
      (by simpa using hval)
    exact ⟨out, ho, hi⟩
  · exact stop_poll_inv cfg st dev par val

/-- Any sequence of poll-management requests preserves the invariant. -/
theorem runPoll_inv (cfg : WorkerCfg σ) (cmds : List DeviceRequest) :
    ∀ st : WorkerState σ, (∀ c ∈ cmds, pollCmd c) → pollInv st →
      pollInv (runPoll cfg st cmds) := by
  induction cmds with
  | nil => intro st _ h; exact h
  | cons c cs ih =>
    intro st hall hinv
    obtain ⟨out, ho, hinv2⟩ := poll_step_inv cfg st c (hall c (by simp))
    simp only [runPoll, ho]
    exact ih _ (fun d hd => hall d (by simp [hd])) hinv2

/-- C6: a second START_POLL for a parameter that already has a live
context leaves the context set unchanged; after any sequence of
START_POLL / STOP_POLL requests the timer is stopped iff no context is
live and otherwise runs at the minimum interval over all live contexts;
and in the concrete scenario START_POLL(p1, 2000), START_POLL(p2, 500)
the timer runs at 500 ms, reverting to 2000 ms after STOP_POLL(p2) and
stopping after STOP_POLL(p1); a duplicate START_POLL keeps one
context. -/
theorem C6_poll_dedupe_and_min_interval (cfg : WorkerCfg σ) :
    (∀ (st : WorkerState σ) cmd, pollCmd cmd →
       ∃ out, execute_request cfg st cmd = Except.ok out ∧
         pollInv out.state) ∧
    (∀ (st : WorkerState σ) (dev : String) (par : Option String)
       (v : PyValue),
       (v = PyValue.none ∨ ∃ n : ℤ, v = PyValue.int n) →
       st.poll_contexts.any (fun cx => cx.1.parameter = par) = true →
       ∃ out, execute_request cfg st ⟨dev, par, RequestType.START_POLL, v⟩
           = Except.ok out ∧ out.state.poll_contexts = st.poll_contexts) ∧
    (∀ (st : WorkerState σ) cmds, (∀ c ∈ cmds, pollCmd c) → pollInv st →
       pollInv (runPoll cfg st cmds)) ∧
    ((runPoll unitCfg unitState
        [⟨"Dev", some "p1", RequestType.START_POLL, PyValue.int 2000⟩,
         ⟨"Dev", some "p2", RequestType.START_POLL, PyValue.int 500⟩]).timer
       = some 500 ∧
     (runPoll unitCfg unitState
        [⟨"Dev", some "p1", RequestType.START_POLL, PyValue.int 2000⟩,
         ⟨"Dev", some "p2", RequestType.START_POLL, PyValue.int 500⟩,
         ⟨"Dev", some "p2", RequestType.STOP_POLL, PyValue.none⟩]).timer
       = some 2000 ∧
     (runPoll unitCfg unitState
        [⟨"Dev", some "p1", RequestType.START_POLL, PyValue.int 2000⟩,
         ⟨"Dev", some "p2", RequestType.START_POLL, PyValue.int 500⟩,
         ⟨"Dev", some "p2", RequestType.STOP_POLL, PyValue.none⟩,
         ⟨"Dev", some "p1", RequestType.STOP_POLL, PyValue.none⟩]).timer
       = Option.none ∧
     (runPoll unitCfg unitState
        [⟨"Dev", some "p1", RequestType.START_POLL, PyValue.int 2000⟩,
         ⟨"Dev", some "p1", RequestType.START_POLL, PyValue.int 100⟩]
       ).poll_contexts.length = 1) := by
  refine ⟨fun st cmd h => poll_step_inv cfg st cmd h,
    fun st dev par v hv hany => ?_,
    fun st cmds hall hinv => runPoll_inv cfg cmds st hall hinv,
    rfl, rfl, rfl, rfl⟩
  obtain ⟨out, ho, _, hnoop⟩ := start_poll_inv cfg st dev par v hv
  exact ⟨out, ho, hnoop hany⟩

/-- C6 witness: the claim theorem applied at a concrete worker state and
a STOP_POLL request. -/
theorem C6_witness :
    ∃ out, execute_request unitCfg unitState
        ⟨"Dev", Option.none, RequestType.STOP_POLL, PyValue.none⟩
        = Except.ok out ∧ pollInv out.state :=
  (C6_poll_dedupe_and_min_interval unitCfg).1 unitState
    ⟨"Dev", Option.none, RequestType.STOP_POLL, PyValue.none⟩ (Or.inr rfl)

end LabSync
namespace LabSync

theorem digitsVal_append (l1 l2 : List Char) :
    digitsVal (l1 ++ l2) = digitsVal l2 + digitsVal l1 * 10 ^ l2.length := by
  induction l2 generalizing l1 with
  | nil => simp [digitsVal]
  | cons c cs ih =>
    have h1 : l1 ++ c :: cs = (l1 ++ [c]) ++ cs := by simp
    rw [h1, ih (l1 ++ [c])]
    have h2 : digitsVal (l1 ++ [c]) = 10 * digitsVal l1 + (c.toNat - 48) := by
      simp [digitsVal, List.foldl_append]
    have h3 : digitsVal (c :: cs) = digitsVal ([c] ++ cs) := by simp
    rw [h3, ih [c]]
    have h4 : digitsVal [c] = c.toNat - 48 := by simp [digitsVal]
    rw [h2, h4]
    simp only [List.length_cons, pow_succ]
    ring

theorem digitChar_isDigit {d : ℕ} (h : d < 10) :
    isDigitChar (digitChar d) = true := by
  interval_cases d <;> decide

theorem digitChar_val {d : ℕ} (h : d < 10) : (digitChar d).toNat - 48 = d := by
  interval_cases d <;> decide

theorem natDecGo_spec : ∀ fuel m, 0 < m → m ≤ fuel →
    (natDecGo fuel m).all isDigitChar = true ∧ natDecGo fuel m ≠ [] ∧
    digitsVal (natDecGo fuel m) = m := by
  intro fuel
  induction fuel with
  | zero => intro m h1 h2; omega
  | succ f ih =>
    intro m h1 h2
    obtain ⟨m', rfl⟩ : ∃ m', m = m' + 1 := ⟨m - 1, by omega⟩
    have hunf : natDecGo (f + 1) (m' + 1)
        = natDecGo f ((m' + 1) / 10) ++ [digitChar ((m' + 1) % 10)] := rfl
    rw [hunf]
    have hdig : digitsVal [digitChar ((m' + 1) % 10)] = (m' + 1) % 10 := by
      have h5 : digitsVal [digitChar ((m' + 1) % 10)]
          = (digitChar ((m' + 1) % 10)).toNat - 48 := by simp [digitsVal]
      rw [h5, digitChar_val (by omega)]
    by_cases hd : (m' + 1) / 10 = 0
    · rw [hd]
      have hnil : natDecGo f 0 = [] := by cases f <;> rfl
      rw [hnil]
      refine ⟨?_, by simp, ?_⟩
      · simp only [List.nil_append, List.all_cons, List.all_nil, Bool.and_true]
        exact digitChar_isDigit (by omega)
      · simp only [List.nil_append, hdig]
        omega
    · obtain ⟨ha, hb, hc⟩ := ih ((m' + 1) / 10) (by omega) (by omega)
      refine ⟨?_, by simp [hb], ?_⟩
      · simp only [List.all_append, ha, Bool.true_and, List.all_cons,
          List.all_nil, Bool.and_true]
        exact digitChar_isDigit (by omega)
      · rw [digitsVal_append, hc, hdig]
        simp only [List.length_singleton, pow_one]
        omega

theorem natDec_spec (n : ℕ) :
    (natDec n).all isDigitChar = true ∧ natDec n ≠ [] ∧
    digitsVal (natDec n) = n := by
  unfold natDec
  by_cases h : n = 0
  · subst h; refine ⟨by decide, by decide, by decide⟩
  · rw [if_neg h]
    exact natDecGo_spec n n (by omega) le_rfl

theorem pyDigitGroup_digits : ∀ l acc, l.all isDigitChar = true →
    (acc ≠ [] ∨ l ≠ []) →
    pyDigitGroup l acc false = some (acc.reverse ++ l) := by
  intro l
  induction l with
  | nil =>
    intro acc _ h2
    rcases h2 with h | h
    · simp [pyDigitGroup, h]
    · simp at h
  | cons c cs ih =>
    intro acc h1 _
    simp only [List.all_cons, Bool.and_eq_true] at h1
    simp only [pyDigitGroup, h1.1, if_true]
    rw [ih (c :: acc) h1.2 (Or.inl (by simp))]
    simp

theorem pyDigitGroup_bad : ∀ l acc u,
    (∃ c ∈ l, ¬(isDigitChar c = true ∨ c = '_')) →
    pyDigitGroup l acc u = Option.none := by
  intro l
  induction l with
  | nil => intro acc u h; simp at h
  | cons c cs ih =>
    intro acc u h
    simp only [List.mem_cons] at h
    obtain ⟨d, hd, hbad⟩ := h
    rcases hd with rfl | hd
    · push_neg at hbad
      simp [pyDigitGroup, hbad.1, hbad.2]
    · simp only [pyDigitGroup]
      split
      · exact ih _ false ⟨d, hd, hbad⟩
      · split
        · exact ih _ true ⟨d, hd, hbad⟩
        · rfl

theorem dropWhile_eq_self_of_head {p : Char → Bool} {l : List Char}
    (h : ∀ c, l.head? = some c → p c = false) : l.dropWhile p = l := by
  cases l with
  | nil => rfl
  | cons c cs => simp [List.dropWhile_cons, h c rfl]

theorem pyStripList_eq_self {l : List Char}
    (hh : ∀ c, l.head? = some c → isPySpace c = false)
    (hl : ∀ c, l.getLast? = some c → isPySpace c = false) :
    pyStripList l = l := by
  unfold pyStripList
  rw [dropWhile_eq_self_of_head hh]
  rw [dropWhile_eq_self_of_head (by
    intro c hc
    rw [List.head?_reverse] at hc
    exact hl c hc)]
  simp

theorem pyStripList_of_all {l : List Char}
    (h : ∀ c ∈ l, isPySpace c = false) : pyStripList l = l := by
  apply pyStripList_eq_self
  · intro c hc
    exact h c (by
      cases l with
      | nil => simp at hc
      | cons a as =>
        simp only [List.head?_cons, Option.some.injEq] at hc
        subst hc
        simp)
  · intro c hc
    exact h c (List.mem_of_getLast?_eq_some hc)

theorem digit_not_space {c : Char} (h : isDigitChar c = true) :
    isPySpace c = false := by
  simp only [isDigitChar, Bool.and_eq_true, decide_eq_true_eq] at h
  simp only [isPySpace, Bool.or_eq_false_iff, decide_eq_false_iff_not]
  omega

end LabSync
namespace LabSync

theorem toUpperAscii_id {c : Char} (h : c.toNat < 97) : toUpperAscii c = c :=
  if_neg (by omega)

theorem string_append_data (a b : String) : (a ++ b).data = a.data ++ b.data := rfl

theorem intStr_data (n : ℤ) :
    (intStr n).data = if n < 0 then '-' :: natDec n.natAbs
      else natDec n.natAbs := by
  unfold intStr
  split
  · rfl
  · rfl

theorem digit_lt97 {c : Char} (h : isDigitChar c = true) : c.toNat < 97 := by
  simp only [isDigitChar, Bool.and_eq_true, decide_eq_true_eq] at h
  omega

theorem intStr_head (n : ℤ) :
    ∃ c cs, (intStr n).data = c :: cs ∧ c.toNat < 65 := by
  rw [intStr_data]
  obtain ⟨ha, hb, _⟩ := natDec_spec n.natAbs
  split
  · exact ⟨'-', _, rfl, by decide⟩
  · cases hd : natDec n.natAbs with
    | nil => exact absurd hd hb
    | cons c cs =>
      refine ⟨c, cs, rfl, ?_⟩
      have : isDigitChar c = true := by
        rw [hd] at ha
        simp only [List.all_cons, Bool.and_eq_true] at ha
        exact ha.1
      have := digit_lt97 this
      simp only [isDigitChar, Bool.and_eq_true, decide_eq_true_eq] at *
      omega

theorem pyUpper_head_ne {l : List Char} {c : Char} (hhead : l.head? = some c)
    (hc : c.toNat < 65) :
    pyUpper (String.mk l) ≠ "TRUE" ∧ pyUpper (String.mk l) ≠ "ON" ∧
    pyUpper (String.mk l) ≠ "FALSE" ∧ pyUpper (String.mk l) ≠ "OFF" := by
  cases l with
  | nil => simp at hhead
  | cons a as =>
    simp only [List.head?_cons, Option.some.injEq] at hhead
    subst hhead
    have hup : toUpperAscii a = a := toUpperAscii_id (by omega)
    refine ⟨?_, ?_, ?_, ?_⟩ <;>
    · intro heq
      have hdata := congrArg String.data heq
      simp only [pyUpper, List.map_cons, hup] at hdata
      have hhd := congrArg List.head? hdata
      simp only [List.head?_cons] at hhd
      have := congrArg (fun o => (Option.map Char.toNat o).getD 0) hhd
      simp at this
      omega

theorem pyStrip_eq_self_of_all {s : String}
    (h : ∀ c ∈ s.data, isPySpace c = false) : pyStrip s = s := by
  unfold pyStrip
  rw [pyStripList_of_all h]

theorem intStr_no_space (n : ℤ) : ∀ c ∈ (intStr n).data, isPySpace c = false := by
  rw [intStr_data]
  obtain ⟨ha, _, _⟩ := natDec_spec n.natAbs
  have hd : ∀ c ∈ natDec n.natAbs, isPySpace c = false := by
    intro c hc
    refine digit_not_space ?_
    rw [List.all_eq_true] at ha
    exact ha c hc
  split
  · intro c hc
    rcases List.mem_cons.mp hc with rfl | hc
    · decide
    · exact hd c hc
  · exact hd

theorem pyIntParse_intStr (n : ℤ) : pyIntParse (intStr n) = some n := by
  unfold pyIntParse
  rw [pyStripList_of_all (intStr_no_space n)]
  rw [intStr_data]
  obtain ⟨ha, hb, hc⟩ := natDec_spec n.natAbs
  by_cases hn : n < 0
  · rw [if_pos hn]
    dsimp only
    rw [if_neg (by decide), if_pos rfl]
    rw [pyDigitGroup_digits (natDec n.natAbs) [] ha (Or.inr hb)]
    simp only [List.reverse_nil, List.nil_append, Option.map_some', hc,
      Option.some.injEq]
    omega
  · rw [if_neg hn]
    cases hd : natDec n.natAbs with
    | nil => exact absurd hd hb
    | cons c cs =>
      have hcd : isDigitChar c = true := by
        rw [hd] at ha
        simp only [List.all_cons, Bool.and_eq_true] at ha
        exact ha.1
      have hplus : ¬ (c = '+') := by
        intro he; rw [he] at hcd; exact absurd hcd (by decide)
      have hminus : ¬ (c = '-') := by
        intro he; rw [he] at hcd; exact absurd hcd (by decide)
      dsimp only
      rw [if_neg hplus, if_neg hminus]
      rw [← hd, pyDigitGroup_digits (natDec n.natAbs) [] ha (Or.inr hb)]
      simp only [List.reverse_nil, List.nil_append, Option.map_some', hc,
        Option.some.injEq]
      omega

theorem parse_value_string_intStr (n : ℤ) :
    parse_value_string (intStr n) = PyValue.int n := by
  unfold parse_value_string
  rw [pyStrip_eq_self_of_all (intStr_no_space n)]
  obtain ⟨c, cs, hdata, hlt⟩ := intStr_head n
  have hne := pyUpper_head_ne (l := (intStr n).data) (c := c)
    (by rw [hdata]; rfl) hlt
  have hs : String.mk (intStr n).data = intStr n := rfl
  rw [hs] at hne
  rw [if_neg (by push_neg; exact ⟨hne.1, hne.2.1⟩),
      if_neg (by push_neg; exact ⟨hne.2.2.1, hne.2.2.2⟩)]
  rw [pyIntParse_intStr n]

end LabSync
namespace LabSync

theorem digitsVal_zero_pad (t : ℕ) (l : List Char) :
    digitsVal (List.replicate t '0' ++ l) = digitsVal l := by
  induction t with
  | zero => rfl
  | succ t ih =>
    have h1 : List.replicate (t + 1) '0' ++ l
        = '0' :: (List.replicate t '0' ++ l) := by simp [List.replicate_succ]
    rw [h1]
    show List.foldl _ (10 * 0 + ('0'.toNat - 48)) _ = _
    have : 10 * 0 + ('0'.toNat - 48) = 0 := by decide
    rw [this]
    exact ih

theorem takeWhile_append_all {p : Char → Bool} {a : List Char} (b : List Char)
    (h : a.all p = true) : (a ++ b).takeWhile p = a ++ b.takeWhile p := by
  induction a with
  | nil => simp
  | cons c cs ih =>
    simp only [List.all_cons, Bool.and_eq_true] at h
    simp [List.takeWhile_cons, h.1, ih h.2]

theorem dropWhile_append_all {p : Char → Bool} {a : List Char} (b : List Char)
    (h : a.all p = true) : (a ++ b).dropWhile p = b.dropWhile p := by
  induction a with
  | nil => simp
  | cons c cs ih =>
    simp only [List.all_cons, Bool.and_eq_true] at h
    simp [List.dropWhile_cons, h.1, ih h.2]

theorem decExpGo_val (q : ℚ) : ∀ fuel k m j, decExpGo q k fuel = some (m, j) →
    (q * (10 : ℚ) ^ j).den = 1 ∧ (q * (10 : ℚ) ^ j).num = m := by
  intro fuel
  induction fuel with
  | zero => intro k m j h; simp [decExpGo] at h
  | succ f ih =>
    intro k m j h
    simp only [decExpGo] at h
    split at h
    · next hden =>
      obtain ⟨rfl, rfl⟩ : m = (q * (10 : ℚ) ^ k).num ∧ j = k := by
        cases h; exact ⟨rfl, rfl⟩
      exact ⟨hden, rfl⟩
    · exact ih (k + 1) m j h

theorem decExp_val {q : ℚ} {m : ℤ} {k : ℕ} (h : decExp? q = some (m, k)) :
    q * (10 : ℚ) ^ k = (m : ℚ) := by
  obtain ⟨hden, hnum⟩ := decExpGo_val q 41 0 m k h
  have := Rat.num_div_den (q * (10 : ℚ) ^ k)
  rw [hden, hnum] at this
  simpa using this.symm

end LabSync
namespace LabSync

theorem all_digit_imp_run {l : List Char} (h : l.all isDigitChar = true) :
    l.all (fun c => isDigitChar c || c = '_') = true := by
  rw [List.all_eq_true] at h ⊢
  intro c hc
  simp [h c hc]

theorem lower_ne_words {l : List Char} (h : '.' ∈ l) :
    String.mk (l.map toLowerAscii) ≠ "inf" ∧
    String.mk (l.map toLowerAscii) ≠ "infinity" ∧
    String.mk (l.map toLowerAscii) ≠ "nan" := by
  have hmem : '.' ∈ l.map toLowerAscii := List.mem_map.mpr ⟨'.', h, by decide⟩
  refine ⟨?_, ?_, ?_⟩ <;>
  · intro h1
    have h2 := congrArg String.data h1
    simp only at h2
    rw [h2] at hmem
    simp at hmem

theorem takeWhile_all {p : Char → Bool} {l : List Char} (h : l.all p = true) :
    l.takeWhile p = l := by
  have := takeWhile_append_all (p := p) [] h
  simpa using this

theorem dropWhile_all {p : Char → Bool} {l : List Char} (h : l.all p = true) :
    l.dropWhile p = [] := by
  have := dropWhile_append_all (p := p) [] h
  simpa using this

theorem digitRun_some {l : List Char} (h : l.all isDigitChar = true)
    (hne : l ≠ []) : digitRun? l false = some l := by
  unfold digitRun?
  rw [if_neg (by simpa using hne)]
  simpa using pyDigitGroup_digits l [] h (Or.inr hne)

theorem digitRun_some_t {l : List Char} (h : l.all isDigitChar = true)
    (hne : l ≠ []) : digitRun? l true = some l := by
  unfold digitRun?
  rw [if_neg (by simpa using hne)]
  simpa using pyDigitGroup_digits l [] h (Or.inr hne)

theorem floatSign_digits {intD : List Char} (rest : List Char)
    (hInt : intD.all isDigitChar = true) (hne : intD ≠ []) (neg : Bool) :
    floatSign ((if neg then ['-'] else []) ++ intD ++ rest)
      = ((if neg then (-1 : ℤ) else 1), intD ++ rest) := by
  obtain ⟨c0, cs0, hc0⟩ : ∃ c0 cs0, intD = c0 :: cs0 := by
    cases intD with
    | nil => exact absurd rfl hne
    | cons a as => exact ⟨a, as, rfl⟩
  have hc0d : isDigitChar c0 = true := by
    rw [hc0] at hInt
    simp only [List.all_cons, Bool.and_eq_true] at hInt
    exact hInt.1
  cases neg
  · simp only [Bool.false_eq_true, if_false, List.nil_append]
    rw [hc0]
    show floatSign (c0 :: (cs0 ++ rest)) = _
    simp only [floatSign]
    rw [if_neg (by intro he; rw [he] at hc0d; exact absurd hc0d (by decide)),
        if_neg (by intro he; rw [he] at hc0d; exact absurd hc0d (by decide))]
    simp
  · simp only [if_true]
    rfl

theorem splitDigitRun_digits_dot (intD rest : List Char)
    (h : intD.all isDigitChar = true) :
    splitDigitRun (intD ++ '.' :: rest) = (intD, '.' :: rest) := by
  unfold splitDigitRun
  rw [takeWhile_append_all _ (all_digit_imp_run h),
      dropWhile_append_all _ (all_digit_imp_run h)]
  simp only [List.takeWhile_cons, List.dropWhile_cons]
  rw [if_neg (by decide), if_neg (by decide)]
  simp

theorem splitDigitRun_all {l : List Char} (h : l.all isDigitChar = true) :
    splitDigitRun l = (l, []) := by
  unfold splitDigitRun
  rw [takeWhile_all (all_digit_imp_run h), dropWhile_all (all_digit_imp_run h)]

theorem pyFloatParse_decimal (neg : Bool) (intD fracD : List Char)
    (hInt : intD.all isDigitChar = true) (hFrac : fracD.all isDigitChar = true)
    (hne : intD ≠ []) (hfne : fracD ≠ []) :
    pyFloatParse (String.mk
        ((if neg then ['-'] else []) ++ intD ++ '.' :: fracD))
      = some (FloatLit.fin ((if neg then (-1 : ℚ) else 1) *
          (digitsVal (intD ++ fracD) : ℚ) / (10 : ℚ) ^ fracD.length)) := by
  have hnospace : ∀ c ∈ (if neg then ['-'] else []) ++ intD ++ '.' :: fracD,
      isPySpace c = false := by
    intro c hc
    simp only [List.mem_append, List.mem_cons] at hc
    rcases hc with (hc | hc) | rfl | hc
    · cases neg <;> simp_all
      rcases hc with rfl; decide
    · exact digit_not_space (by rw [List.all_eq_true] at hInt; exact hInt c hc)
    · decide
    · exact digit_not_space (by rw [List.all_eq_true] at hFrac; exact hFrac c hc)
  have hdot : '.' ∈ intD ++ '.' :: fracD := by simp
  have hwords := lower_ne_words hdot
  unfold pyFloatParse
  simp only
  rw [show pyStripList (String.mk ((if neg then ['-'] else []) ++ intD ++
      '.' :: fracD)).data = (if neg then ['-'] else []) ++ intD ++
      '.' :: fracD from pyStripList_of_all hnospace]
  rw [floatSign_digits ('.' :: fracD) hInt hne neg]
  dsimp only
  rw [if_neg (by push_neg; exact hwords)]
  rw [splitDigitRun_digits_dot intD fracD hInt]
  dsimp only
  rw [digitRun_some_t hInt hne]
  dsimp only
  rw [if_pos rfl]
  rw [splitDigitRun_all hFrac]
  dsimp only
  rw [digitRun_some_t hFrac hfne]
  dsimp only
  rw [if_neg (by simp [hne])]
  simp only [floatExp?, Option.map_some', Option.some.injEq]
  rw [zpow_zero, mul_one]
  cases neg <;> norm_num

end LabSync
namespace LabSync

theorem pyIntParse_none_of_dot {s : String}
    (hs : pyStripList s.data = s.data) (hdot : '.' ∈ s.data) :
    pyIntParse s = Option.none := by
  unfold pyIntParse
  rw [hs]
  cases hl : s.data with
  | nil => simp [hl] at hdot
  | cons c rest =>
    rw [hl] at hdot
    dsimp only
    by_cases h1 : c = '+'
    · rw [if_pos h1]
      rw [pyDigitGroup_bad rest [] false ⟨'.', by
        rcases List.mem_cons.mp hdot with he | hm
        · rw [h1] at he; simp at he
        · exact hm, by decide⟩]
      rfl
    · rw [if_neg h1]
      by_cases h2 : c = '-'
      · rw [if_pos h2]
        rw [pyDigitGroup_bad rest [] false ⟨'.', by
          rcases List.mem_cons.mp hdot with he | hm
          · rw [h2] at he; simp at he
          · exact hm, by decide⟩]
        rfl
      · rw [if_neg h2]
        rw [pyDigitGroup_bad (c :: rest) [] false ⟨'.', hdot, by decide⟩]
        rfl

theorem floatStr_data_zero {q : ℚ} {m : ℤ} (h : decExp? q = some (m, 0)) :
    (floatStr q).data
      = (if decide (m < 0) then ['-'] else []) ++ natDec m.natAbs ++
        '.' :: ['0'] := by
  unfold floatStr
  rw [h]
  show (intStr m ++ ".0").data = _
  rw [string_append_data, intStr_data]
  by_cases hm : m < 0 <;> simp [hm]

theorem floatStr_data_succ {q : ℚ} {m : ℤ} {k : ℕ}
    (h : decExp? q = some (m, k + 1)) :
    ∃ intD fracD : List Char,
      (floatStr q).data
        = (if decide (m < 0) then ['-'] else []) ++ intD ++ '.' :: fracD ∧
      intD.all isDigitChar = true ∧ fracD.all isDigitChar = true ∧
      intD ≠ [] ∧ fracD ≠ [] ∧ fracD.length = k + 1 ∧
      digitsVal (intD ++ fracD) = m.natAbs := by
  unfold floatStr
  rw [h]
  obtain ⟨ha, hb, hc⟩ := natDec_spec m.natAbs
  set s0 := natDec m.natAbs with hs0
  set s : List Char := if s0.length ≤ k + 1 then
      List.replicate (k + 2 - s0.length) '0' ++ s0 else s0 with hs
  have hsall : s.all isDigitChar = true := by
    rw [hs]
    split
    · rw [List.all_append, ha]
      simp only [Bool.and_true]
      rw [List.all_eq_true]
      intro c hcm
      rw [List.eq_of_mem_replicate hcm]
      decide
    · exact ha
  have hsval : digitsVal s = m.natAbs := by
    rw [hs]
    split
    · rw [digitsVal_zero_pad, hc]
    · exact hc
  have hslen : k + 2 ≤ s.length := by
    rw [hs]
    split
    · next hle =>
      rw [List.length_append, List.length_replicate]
      have : s0.length ≥ 1 := by
        cases hz : s0 with
        | nil => exact absurd hz hb
        | cons a as => simp [hz]
      omega
    · next hgt => omega
  refine ⟨s.take (s.length - (k + 1)), s.drop (s.length - (k + 1)), ?_, ?_, ?_,
    ?_, ?_, ?_, ?_⟩
  · show ((if m < 0 then "-" else "") ++ String.mk (s.take (s.length - (k+1)))
      ++ "." ++ String.mk (s.drop (s.length - (k+1)))).data = _
    rw [string_append_data, string_append_data, string_append_data]
    by_cases hm : m < 0 <;> simp [hm]
  · rw [List.all_eq_true]
    intro c hcm
    rw [List.all_eq_true] at hsall
    exact hsall c (List.take_subset _ _ hcm)
  · rw [List.all_eq_true]
    intro c hcm
    rw [List.all_eq_true] at hsall
    exact hsall c (List.drop_subset _ _ hcm)
  · intro he
    have := congrArg List.length he
    rw [List.length_take] at this
    simp at this
    omega
  · intro he
    have := congrArg List.length he
    rw [List.length_drop] at this
    simp at this
    omega
  · rw [List.length_drop]
    omega
  · rw [List.take_append_drop, hsval]

end LabSync
namespace LabSync

theorem sign_mul_natAbs (m : ℤ) :
    (if decide (m < 0) then (-1 : ℚ) else 1) * (m.natAbs : ℚ) = (m : ℚ) := by
  by_cases hm : m < 0
  · rw [if_pos (by simpa using hm), Int.cast_natAbs,
      abs_of_neg (by exact_mod_cast hm)]
    push_cast
    ring
  · rw [if_neg (by simpa using hm), Int.cast_natAbs,
      abs_of_nonneg (by exact_mod_cast not_lt.mp hm)]
    ring

theorem parse_value_string_float_core {q : ℚ} {m : ℤ} {intD fracD : List Char}
    (hdata : (floatStr q).data
      = (if decide (m < 0) then ['-'] else []) ++ intD ++ '.' :: fracD)
    (hInt : intD.all isDigitChar = true) (hFrac : fracD.all isDigitChar = true)
    (hne : intD ≠ []) (hfne : fracD ≠ [])
    (hval : (if decide (m < 0) then (-1 : ℚ) else 1) *
        (digitsVal (intD ++ fracD) : ℚ) / (10 : ℚ) ^ fracD.length = q) :
    parse_value_string (floatStr q) = PyValue.float q := by
  have hnospace : ∀ c ∈ (floatStr q).data, isPySpace c = false := by
    rw [hdata]
    intro c hc
    simp only [List.mem_append, List.mem_cons] at hc
    rcases hc with (hc | hc) | rfl | hc
    · by_cases hm : m < 0 <;> simp [hm] at hc
      rcases hc with rfl; decide
    · rw [List.all_eq_true] at hInt
      have := hInt c hc
      simp only [isDigitChar, Bool.and_eq_true, decide_eq_true_eq] at this
      simp only [isPySpace, Bool.or_eq_false_iff, decide_eq_false_iff_not]
      omega
    · decide
    · rw [List.all_eq_true] at hFrac
      have := hFrac c hc
      simp only [isDigitChar, Bool.and_eq_true, decide_eq_true_eq] at this
      simp only [isPySpace, Bool.or_eq_false_iff, decide_eq_false_iff_not]
      omega
  have hhead : ∃ c, (floatStr q).data.head? = some c ∧ c.toNat < 65 := by
    rw [hdata]
    by_cases hm : m < 0
    · rw [if_pos (by simpa using hm)]
      exact ⟨'-', rfl, by decide⟩
    · rw [if_neg (by simpa using hm), List.nil_append]
      cases hi : intD with
      | nil => exact absurd hi hne
      | cons c cs =>
        refine ⟨c, rfl, ?_⟩
        rw [hi] at hInt
        simp only [List.all_cons, Bool.and_eq_true] at hInt
        have := hInt.1
        simp only [isDigitChar, Bool.and_eq_true, decide_eq_true_eq] at this
        omega
  have hdot : '.' ∈ (floatStr q).data := by
    rw [hdata]; simp
  unfold parse_value_string
  rw [pyStrip_eq_self_of_all hnospace]
  obtain ⟨c, hch, hclt⟩ := hhead
  have hne4 := pyUpper_head_ne hch hclt
  have hs : String.mk (floatStr q).data = floatStr q := rfl
  rw [hs] at hne4
  rw [if_neg (by push_neg; exact ⟨hne4.1, hne4.2.1⟩),
      if_neg (by push_neg; exact ⟨hne4.2.2.1, hne4.2.2.2⟩)]
  rw [pyIntParse_none_of_dot (pyStripList_of_all hnospace) hdot]
  have hfl : floatStr q
      = String.mk ((if decide (m < 0) then ['-'] else []) ++ intD ++
          '.' :: fracD) := by
    rw [← hdata]
  rw [hfl, pyFloatParse_decimal (decide (m < 0)) intD fracD hInt hFrac hne hfne,
    hval]

theorem parse_value_string_floatStr {q : ℚ} {m : ℤ} {k : ℕ}
    (h : decExp? q = some (m, k)) :
    parse_value_string (floatStr q) = PyValue.float q := by
  have hv := decExp_val h
  cases k with
  | zero =>
    obtain ⟨ha, hb, hc⟩ := natDec_spec m.natAbs
    refine parse_value_string_float_core (floatStr_data_zero h) ha (by decide)
      hb (by decide) ?_
    rw [pow_zero, mul_one] at hv
    rw [digitsVal_append, hc]
    rw [show digitsVal [Char.ofNat 48] = 0 from rfl,
      show ([Char.ofNat 48] : List Char).length = 1 from rfl]
    push_cast
    rw [hv, div_eq_iff (by norm_num : ((10:ℚ) ^ (1:ℕ)) ≠ 0)]
    linear_combination 10 * sign_mul_natAbs m
  | succ k =>
    obtain ⟨intD, fracD, hdata, hInt, hFrac, hne, hfne, hlen, hdv⟩ :=
      floatStr_data_succ h
    refine parse_value_string_float_core hdata hInt hFrac hne hfne ?_
    rw [hdv, hlen, div_eq_iff (by positivity), sign_mul_natAbs]
    exact hv.symm

end LabSync
namespace LabSync

theorem alookup_cons [DecidableEq K] (kv : K × V) (m : List (K × V)) (k : K) :
    alookup (kv :: m) k = if kv.1 = k then some kv.2 else alookup m k := by
  unfold alookup
  rw [List.find?_cons]
  by_cases h : kv.1 = k
  · rw [show decide (kv.1 = k) = true from by simpa using h, if_pos h]
    rfl
  · rw [show decide (kv.1 = k) = false from by simpa using h, if_neg h]

theorem alookup_append [DecidableEq K] (a b : List (K × V)) (k : K) :
    alookup (a ++ b) k = (alookup a k).or (alookup b k) := by
  induction a with
  | nil => simp [alookup]
  | cons kv t ih =>
    rw [List.cons_append, alookup_cons, alookup_cons]
    by_cases h : kv.1 = k
    · rw [if_pos h, if_pos h]
      rfl
    · rw [if_neg h, if_neg h, ih]

theorem any_key_eq_false {m : List (K × V)} [DecidableEq K] {k : K}
    (h : alookup m k = Option.none) : (m.any fun kv => kv.1 = k) = false := by
  unfold alookup at h
  rw [Option.map_eq_none'] at h
  rw [List.any_eq_false]
  intro kv hkv
  have := List.find?_eq_none.mp h kv hkv
  simpa using this

theorem dictSet_fresh [DecidableEq K] {m : List (K × V)} {k : K} (v : V)
    (h : alookup m k = Option.none) : dictSet m k v = m ++ [(k, v)] := by
  unfold dictSet
  rw [any_key_eq_false h]
  rfl

theorem map_keep_of_none [DecidableEq K] {m : List (K × V)} {k : K} (v : V)
    (h : alookup m k = Option.none) :
    (m.map fun kv => if kv.1 = k then (k, v) else kv) = m := by
  induction m with
  | nil => rfl
  | cons kv t ih =>
    rw [alookup_cons] at h
    by_cases hk : kv.1 = k
    · rw [if_pos hk] at h
      exact absurd h (by simp)
    · rw [if_neg hk] at h
      rw [List.map_cons, if_neg hk, ih h]

theorem dictSet_replace_snoc [DecidableEq K] {base : List (K × V)} {k : K}
    (x v : V) (h : alookup base k = Option.none) :
    dictSet (base ++ [(k, x)]) k v = base ++ [(k, v)] := by
  unfold dictSet
  rw [if_pos (by simp)]
  rw [List.map_append, map_keep_of_none v h]
  simp

theorem alookup_snoc_self [DecidableEq K] (base : List (K × V)) (k : K) (x : V)
    (h : alookup base k = Option.none) :
    alookup (base ++ [(k, x)]) k = some x := by
  rw [alookup_append, h]
  rw [alookup_cons, if_pos rfl]
  rfl

theorem alookup_snoc_other [DecidableEq K] (base : List (K × V)) (k k2 : K)
    (x : V) (h : k2 ≠ k) :
    alookup (base ++ [(k2, x)]) k = alookup base k := by
  rw [alookup_append, alookup_cons, if_neg h]
  show _ = _
  cases alookup base k <;> rfl

theorem dropWhile_eq_self_head {p : Char → Bool} {l : List Char}
    (h : l.dropWhile p = l) : ∀ c, l.head? = some c → p c = false := by
  intro c hc
  cases l with
  | nil => simp at hc
  | cons a t =>
    simp only [List.head?_cons, Option.some.injEq] at hc
    subst hc
    by_contra hp
    rw [Bool.not_eq_false] at hp
    rw [List.dropWhile_cons, if_pos hp] at h
    have := congrArg List.length h
    have hle := (List.dropWhile_suffix (l := t) p).length_le
    simp at this
    omega

theorem strip_bounds_of_eq_self {l : List Char} (h : pyStripList l = l) :
    (∀ c, l.head? = some c → isPySpace c = false) ∧
    (∀ c, l.getLast? = some c → isPySpace c = false) := by
  unfold pyStripList at h
  have h1le := (List.dropWhile_suffix (l := l) isPySpace).length_le
  have h2le :=
    (List.dropWhile_suffix (l := (l.dropWhile isPySpace).reverse)
      isPySpace).length_le
  have hlen := congrArg List.length h
  simp only [List.length_reverse] at hlen h2le
  have hdl : (l.dropWhile isPySpace).length = l.length := by omega
  have hd : l.dropWhile isPySpace = l :=
    (List.dropWhile_suffix isPySpace).eq_of_length hdl
  refine ⟨dropWhile_eq_self_head hd, ?_⟩
  rw [hd] at h
  have hrev : l.reverse.dropWhile isPySpace = l.reverse := by
    have := congrArg List.reverse h
    rw [List.reverse_reverse] at this
    rw [this]
  intro c hc
  exact dropWhile_eq_self_head hrev c (by rw [List.head?_reverse l, hc])

theorem pyStripList_cons_nonspace (c : Char) (l : List Char)
    (hc : isPySpace c = false) :
    ∃ t, pyStripList (c :: l) = c :: t := by
  unfold pyStripList
  rw [List.dropWhile_cons, if_neg (by simp [hc])]
  rw [List.reverse_cons, List.dropWhile_append]
  by_cases he : (l.reverse.dropWhile isPySpace).isEmpty
  · rw [if_pos he]
    rw [List.dropWhile_cons, if_neg (by simp [hc])]
    exact ⟨[], rfl⟩
  · rw [if_neg he]
    rw [List.reverse_append, List.reverse_cons, List.reverse_nil,
      List.nil_append]
    exact ⟨_, rfl⟩

theorem wordChar_not_space {c : Char} (h : wordChar c = true) :
    isPySpace c = false := by
  simp only [wordChar, isAsciiAlpha, isDigitChar, Bool.or_eq_true,
    Bool.and_eq_true, decide_eq_true_eq] at h
  simp only [isPySpace, Bool.or_eq_false_iff, decide_eq_false_iff_not]
  rcases h with ((h | h) | h) | h
  · omega
  · omega
  · omega
  · rw [h]
    decide

end LabSync
namespace LabSync

theorem parse_value_string_wfStr {s : String} (h : wfStr s) :
    parse_value_string s = PyValue.str s := by
  obtain ⟨_, _, hstrip, hq, _, ht, ho, hf, hoff, hint, hfl⟩ := h
  unfold parse_value_string
  rw [hstrip, if_neg (by push_neg; exact ⟨ht, ho⟩),
    if_neg (by push_neg; exact ⟨hf, hoff⟩), hint, hfl, hq]

theorem floatStr_chars {q : ℚ} {m : ℤ} {k : ℕ} (h : decExp? q = some (m, k)) :
    ∀ c ∈ (floatStr q).data,
      isDigitChar c = true ∨ c = '-' ∨ c = '.' := by
  cases k with
  | zero =>
    rw [floatStr_data_zero h]
    intro c hc
    obtain ⟨ha, _, _⟩ := natDec_spec m.natAbs
    simp only [List.mem_append, List.mem_cons] at hc
    rcases hc with (hc | hc) | rfl | hc
    · by_cases hm : m < 0 <;> simp [hm] at hc
      exact Or.inr (Or.inl hc)
    · rw [List.all_eq_true] at ha
      exact Or.inl (ha c hc)
    · exact Or.inr (Or.inr rfl)
    · simp at hc
      subst hc
      exact Or.inl (by decide)
  | succ k =>
    obtain ⟨intD, fracD, hdata, hInt, hFrac, _, _, _, _⟩ := floatStr_data_succ h
    rw [hdata]
    intro c hc
    simp only [List.mem_append, List.mem_cons] at hc
    rcases hc with (hc | hc) | rfl | hc
    · by_cases hm : m < 0 <;> simp [hm] at hc
      exact Or.inr (Or.inl hc)
    · rw [List.all_eq_true] at hInt
      exact Or.inl (hInt c hc)
    · exact Or.inr (Or.inr rfl)
    · rw [List.all_eq_true] at hFrac
      exact Or.inl (hFrac c hc)

theorem floatStr_has_dot {q : ℚ} {m : ℤ} {k : ℕ}
    (h : decExp? q = some (m, k)) : '.' ∈ (floatStr q).data := by
  cases k with
  | zero =>
    rw [floatStr_data_zero h]
    simp
  | succ k =>
    obtain ⟨intD, fracD, hdata, _, _, _, _, _, _⟩ := floatStr_data_succ h
    rw [hdata]
    simp

theorem scalar_render_facts {v : PyValue} (h : wfScalar v) :
    (pyStr v).data ≠ [] ∧
    '#' ∉ (pyStr v).data ∧
    pyStripList (pyStr v).data = (pyStr v).data ∧
    parse_value_string (pyStr v) = v := by
  cases v with
  | bool b =>
    cases b
    · exact ⟨by decide, by decide, by decide, rfl⟩
    · exact ⟨by decide, by decide, by decide, rfl⟩
  | int n =>
    show (intStr n).data ≠ [] ∧ '#' ∉ (intStr n).data ∧
      pyStripList (intStr n).data = (intStr n).data ∧
      parse_value_string (intStr n) = PyValue.int n
    obtain ⟨c, cs, hdata, _⟩ := intStr_head n
    refine ⟨by rw [hdata]; simp, ?_, pyStripList_of_all (intStr_no_space n),
      parse_value_string_intStr n⟩
    intro hmem
    rw [intStr_data] at hmem
    obtain ⟨ha, _, _⟩ := natDec_spec n.natAbs
    rw [List.all_eq_true] at ha
    have : isDigitChar '#' = true ∨ ('#' : Char) = '-' := by
      by_cases hn : n < 0
      · rw [if_pos hn] at hmem
        rcases List.mem_cons.mp hmem with he | hm
        · exact Or.inr he
        · exact Or.inl (ha _ hm)
      · rw [if_neg hn] at hmem
        exact Or.inl (ha _ hmem)
    rcases this with hd | he
    · exact absurd hd (by decide)
    · exact absurd he (by decide)
  | float q =>
    show (floatStr q).data ≠ [] ∧ '#' ∉ (floatStr q).data ∧
      pyStripList (floatStr q).data = (floatStr q).data ∧
      parse_value_string (floatStr q) = PyValue.float q
    obtain ⟨⟨⟨m, k⟩, hd⟩, _⟩ := h
    have hchars := floatStr_chars hd
    refine ⟨List.ne_nil_of_mem (floatStr_has_dot hd), ?_, ?_,
      parse_value_string_floatStr hd⟩
    · intro hmem
      rcases hchars _ hmem with hc | hc | hc
      · exact absurd hc (by decide)
      · exact absurd hc (by decide)
      · exact absurd hc (by decide)
    · refine pyStripList_of_all ?_
      intro c hc
      rcases hchars c hc with h1 | h1 | h1
      · simp only [isDigitChar, Bool.and_eq_true, decide_eq_true_eq] at h1
        simp only [isPySpace, Bool.or_eq_false_iff, decide_eq_false_iff_not]
        omega
      · rw [h1]; decide
      · rw [h1]; decide
  | str s =>
    show s.data ≠ [] ∧ '#' ∉ s.data ∧
      pyStripList s.data = s.data ∧ parse_value_string s = PyValue.str s
    have hwf : wfStr s := h
    obtain ⟨hne, _, hstrip, _, hhash, _⟩ := hwf
    refine ⟨?_, ?_, ?_, parse_value_string_wfStr h⟩
    · intro hd
      exact hne (by rw [show s = String.mk s.data from rfl, hd])
    · intro hmem
      have hct : s.data.contains '#' = true := by simpa using hmem
      rw [hhash] at hct
      exact absurd hct (by decide)
    · have := congrArg String.data hstrip
      exact this
  | none => exact absurd h (by simp [wfScalar])
  | tuple2 a b => exact absurd h (by simp [wfScalar])

end LabSync
namespace LabSync

theorem pyStripList_cons_space {c : Char} (l : List Char)
    (hc : isPySpace c = true) :
    pyStripList (c :: l) = pyStripList l := by
  unfold pyStripList
  rw [List.dropWhile_cons, if_pos (by simp [hc])]

theorem afterEqSep_eq {w : List Char} {idx : Option ℕ} {V : List Char}
    (hVh : ∀ c, V.head? = some c → isPySpace c = false) :
    afterEqSep w idx (' ' :: '=' :: ' ' :: V)
      = LabLine.entry (String.mk w) idx (String.mk V) := by
  unfold afterEqSep
  rw [List.dropWhile_cons_of_pos (by decide),
    List.dropWhile_cons_of_neg (by decide)]
  dsimp only
  rw [if_pos rfl]
  congr 1
  rw [List.dropWhile_cons_of_pos (by decide)]
  cases hV : V with
  | nil => rfl
  | cons vh vt =>
    rw [List.dropWhile_cons_of_neg (by simp [hVh vh (by rw [hV]; rfl)])]

theorem tryEntry_scalar {p : String} {V : List Char}
    (hp1 : p.data ≠ []) (hp2 : p.data.all wordChar = true)
    (hVh : ∀ c, V.head? = some c → isPySpace c = false) :
    tryEntry (p.data ++ (' ' :: '=' :: ' ' :: V))
      = LabLine.entry p Option.none (String.mk V) := by
  unfold tryEntry
  dsimp only
  rw [takeWhile_append_all _ hp2, dropWhile_append_all _ hp2]
  rw [List.takeWhile_cons_of_neg (by decide)]
  rw [List.dropWhile_cons_of_neg (by decide)]
  rw [List.append_nil]
  obtain ⟨ph, pt, hp⟩ := List.exists_cons_of_ne_nil hp1
  rw [hp]
  rw [show (ph :: pt).isEmpty = false from rfl]
  dsimp only
  rw [if_neg (by decide)]
  rw [← hp, afterEqSep_eq hVh]
  rfl

theorem tryEntry_chan {p : String} {V : List Char} {i : ℕ}
    (hp1 : p.data ≠ []) (hp2 : p.data.all wordChar = true)
    (hVh : ∀ c, V.head? = some c → isPySpace c = false) :
    tryEntry (p.data ++ ('[' :: (natDec i ++ (']' :: ' ' :: '=' :: ' ' :: V))))
      = LabLine.entry p (some i) (String.mk V) := by
  obtain ⟨ha, hb, hc⟩ := natDec_spec i
  unfold tryEntry
  dsimp only
  rw [takeWhile_append_all _ hp2, dropWhile_append_all _ hp2]
  rw [List.takeWhile_cons_of_neg (by decide)]
  rw [List.dropWhile_cons_of_neg (by decide)]
  rw [List.append_nil]
  obtain ⟨ph, pt, hp⟩ := List.exists_cons_of_ne_nil hp1
  rw [hp]
  rw [show (ph :: pt).isEmpty = false from rfl]
  dsimp only
  rw [if_pos rfl]
  rw [takeWhile_append_all _ ha, dropWhile_append_all _ ha]
  rw [List.takeWhile_cons_of_neg (by decide)]
  rw [List.dropWhile_cons_of_neg (by decide)]
  rw [List.append_nil]
  dsimp only
  rw [if_pos rfl]
  rw [hc, ← hp, afterEqSep_eq hVh]
  rw [show (natDec i).isEmpty = false from by
    cases hd : natDec i
    · exact absurd hd hb
    · rfl]
  rfl
end LabSync
namespace LabSync

theorem classify_scalar_line {p V : String}
    (hp1 : p ≠ "") (hp2 : p.data.all wordChar = true)
    (hVne : V.data ≠ []) (hVstrip : pyStripList V.data = V.data) :
    classifyLine ("\t" ++ p ++ " = " ++ V)
      = LabLine.entry p Option.none V := by
  obtain ⟨hVh, hVl⟩ := strip_bounds_of_eq_self hVstrip
  have hp1d : p.data ≠ [] := fun hd =>
    hp1 (by rw [show p = String.mk p.data from rfl, hd])
  obtain ⟨ph, pt, hp⟩ := List.exists_cons_of_ne_nil hp1d
  have hphw : wordChar ph = true := by
    rw [hp] at hp2
    simp only [List.all_cons, Bool.and_eq_true] at hp2
    exact hp2.1
  have hdata : ("\t" ++ p ++ " = " ++ V).data
      = '\t' :: (p.data ++ (' ' :: '=' :: ' ' :: V.data)) := by
    rw [string_append_data, string_append_data, string_append_data]
    simp
  unfold classifyLine
  rw [hdata, pyStripList_cons_space _ (by decide)]
  have hbody : pyStripList (p.data ++ (' ' :: '=' :: ' ' :: V.data))
      = p.data ++ (' ' :: '=' :: ' ' :: V.data) := by
    refine pyStripList_eq_self ?_ ?_
    · intro c hcd
      rw [hp, List.cons_append, List.head?_cons] at hcd
      simp only [Option.some.injEq] at hcd
      subst hcd
      exact wordChar_not_space hphw
    · intro c hcd
      rw [show p.data ++ (' ' :: '=' :: ' ' :: V.data)
          = (p.data ++ [' ', '=', ' ']) ++ V.data from by simp] at hcd
      rw [List.getLast?_append_of_ne_nil _ hVne] at hcd
      exact hVl c hcd
  rw [hbody, hp, List.cons_append]
  dsimp only
  rw [if_neg (fun he => by rw [he] at hphw; exact absurd hphw (by decide))]
  rw [if_neg (fun hand => by
    rw [hand.1] at hphw; exact absurd hphw (by decide))]
  rw [← List.cons_append, ← hp, tryEntry_scalar hp1d hp2 hVh]

theorem classify_chan_line {p V : String} {i : ℕ}
    (hp1 : p ≠ "") (hp2 : p.data.all wordChar = true)
    (hVne : V.data ≠ []) (hVstrip : pyStripList V.data = V.data) :
    classifyLine ("\t" ++ p ++ "[" ++ String.mk (natDec i) ++ "] = " ++ V)
      = LabLine.entry p (some i) V := by
  obtain ⟨hVh, hVl⟩ := strip_bounds_of_eq_self hVstrip
  have hp1d : p.data ≠ [] := fun hd =>
    hp1 (by rw [show p = String.mk p.data from rfl, hd])
  obtain ⟨ph, pt, hp⟩ := List.exists_cons_of_ne_nil hp1d
  have hphw : wordChar ph = true := by
    rw [hp] at hp2
    simp only [List.all_cons, Bool.and_eq_true] at hp2
    exact hp2.1
  have hdata : ("\t" ++ p ++ "[" ++ String.mk (natDec i) ++ "] = " ++ V).data
      = '\t' :: (p.data ++
          ('[' :: (natDec i ++ (']' :: ' ' :: '=' :: ' ' :: V.data)))) := by
    rw [string_append_data, string_append_data, string_append_data,
      string_append_data, string_append_data]
    simp
  unfold classifyLine
  rw [hdata, pyStripList_cons_space _ (by decide)]
  have hbody : pyStripList (p.data ++
        ('[' :: (natDec i ++ (']' :: ' ' :: '=' :: ' ' :: V.data))))
      = p.data ++ ('[' :: (natDec i ++ (']' :: ' ' :: '=' :: ' ' :: V.data)))
      := by
    refine pyStripList_eq_self ?_ ?_
    · intro c hcd
      rw [hp, List.cons_append, List.head?_cons] at hcd
      simp only [Option.some.injEq] at hcd
      subst hcd
      exact wordChar_not_space hphw
    · intro c hcd
      rw [show p.data ++
            ('[' :: (natDec i ++ (']' :: ' ' :: '=' :: ' ' :: V.data)))
          = (p.data ++ ('[' :: natDec i) ++ [']', ' ', '=', ' ']) ++ V.data
          from by simp] at hcd
      rw [List.getLast?_append_of_ne_nil _ hVne] at hcd
      exact hVl c hcd
  rw [hbody, hp, List.cons_append]
  dsimp only
  rw [if_neg (fun he => by rw [he] at hphw; exact absurd hphw (by decide))]
  rw [if_neg (fun hand => by
    rw [hand.1] at hphw; exact absurd hphw (by decide))]
  rw [← List.cons_append, ← hp, tryEntry_chan hp1d hp2 hVh]

theorem classify_section_line {d : String} (hd : wfDevice d) :
    classifyLine ("[" ++ d ++ "]") = LabLine.section d := by
  obtain ⟨hprint, hstrip⟩ := hd
  have hdata : ("[" ++ d ++ "]").data = '[' :: (d.data ++ [']']) := by
    rw [string_append_data, string_append_data]
    simp
  unfold classifyLine
  rw [hdata]
  have hstripline : pyStripList ('[' :: (d.data ++ [']']))
      = '[' :: (d.data ++ [']']) := by
    refine pyStripList_eq_self ?_ ?_
    · intro c hcd
      simp only [List.head?_cons, Option.some.injEq] at hcd
      subst hcd
      decide
    · intro c hcd
      rw [show ('[' :: (d.data ++ [']']))
          = ('[' :: d.data) ++ [']'] from by simp] at hcd
      simp only [List.getLast?_append, List.getLast?_singleton] at hcd
      rw [show ((some ']').or ('[' :: d.data).getLast?) = some ']' from rfl]
        at hcd
      simp only [Option.some.injEq] at hcd
      subst hcd
      decide
  rw [hstripline]
  dsimp only
  rw [if_neg (by decide)]
  rw [if_pos ⟨rfl, by simp, by
    rw [show (d.data ++ [']']).getLast? = some ']' from by simp]⟩]
  rw [show (d.data ++ [']']).dropLast = d.data from by simp]
  rw [show pyStrip (String.mk d.data) = pyStrip d from rfl, hstrip]

theorem classify_hash_head {raw : String} {l : List Char}
    (hdata : raw.data = '#' :: l) :
    classifyLine raw = LabLine.blank := by
  unfold classifyLine
  rw [hdata]
  obtain ⟨t, ht⟩ := pyStripList_cons_nonspace '#' l (by decide)
  rw [ht]
  dsimp only
  rw [if_pos rfl]

end LabSync
namespace LabSync

theorem loadStep_blank (st : LoadState) {raw : String}
    (h : classifyLine raw = LabLine.blank) : loadStep st raw = st := by
  unfold loadStep
  rw [h]

theorem loadStep_section (st : LoadState) {d : String} (hd : wfDevice d) :
    loadStep st ("[" ++ d ++ "]") = { st with current_device := d } := by
  unfold loadStep
  rw [classify_section_line hd]

theorem beforeHash_of_no_hash {s : String} (h : '#' ∉ s.data) :
    beforeHash s = s := by
  unfold beforeHash
  rw [takeWhile_all (by
    rw [List.all_eq_true]
    intro c hc
    simp only [decide_eq_true_eq]
    intro he
    exact h (he ▸ hc))]

theorem loadStep_scalar (st : LoadState) {p : String} {v : PyValue}
    (hp : wfParam p) (hv : wfScalar v) :
    loadStep st ("\t" ++ p ++ " = " ++ pyStr v)
      = { st with data := (dictSet st.data (st.current_device, p)
            (LabValue.scalar v)) } := by
  obtain ⟨hne, hhash, hstrip, hparse⟩ := scalar_render_facts hv
  unfold loadStep
  rw [classify_scalar_line hp.1 hp.2 hne hstrip]
  dsimp only
  rw [beforeHash_of_no_hash hhash]
  rw [show pyStrip (pyStr v) = pyStr v from by unfold pyStrip; rw [hstrip]]
  rw [hparse]

theorem loadStep_chan (st : LoadState) {p : String} {i : ℕ} {v : PyValue}
    (hp : wfParam p) (hv : wfScalar v) :
    loadStep st ("\t" ++ p ++ "[" ++ String.mk (natDec i) ++ "] = " ++
        pyStr v)
      = { st with data := (dictSet st.data (st.current_device, p)
            (LabValue.chan (dictSet
              (match alookup st.data (st.current_device, p) with
               | some (LabValue.chan m) => m
               | _ => []) i v))) } := by
  obtain ⟨hne, hhash, hstrip, hparse⟩ := scalar_render_facts hv
  unfold loadStep
  rw [classify_chan_line hp.1 hp.2 hne hstrip]
  dsimp only
  rw [beforeHash_of_no_hash hhash]
  rw [show pyStrip (pyStr v) = pyStr v from by unfold pyStrip; rw [hstrip]]
  rw [hparse]

end LabSync
namespace LabSync

theorem alookup_none_iff_any [DecidableEq K] (m : List (K × V)) (k : K) :
    alookup m k = Option.none ↔ (m.any fun kv => kv.1 = k) = false := by
  induction m with
  | nil => simp [alookup]
  | cons kv t ih =>
    rw [alookup_cons, List.any_cons]
    by_cases hk : kv.1 = k
    · rw [if_pos hk]
      simp [hk]
    · rw [if_neg hk]
      simp [hk, ih]

theorem alookup_map_replace_self [DecidableEq K] {m : List (K × V)} {k : K}
    (v : V) (h : (m.any fun kv => kv.1 = k) = true) :
    alookup (m.map fun kv => if kv.1 = k then (k, v) else kv) k = some v := by
  induction m with
  | nil => simp at h
  | cons kv t ih =>
    rw [List.any_cons] at h
    rw [List.map_cons]
    by_cases hk : kv.1 = k
    · rw [if_pos hk, alookup_cons, if_pos rfl]
    · rw [if_neg hk, alookup_cons, if_neg hk]
      apply ih
      simpa [hk] using h

theorem alookup_map_replace_other [DecidableEq K] {m : List (K × V)}
    {k k2 : K} (v : V) (h : k2 ≠ k) :
    alookup (m.map fun kv => if kv.1 = k then (k, v) else kv) k2
      = alookup m k2 := by
  induction m with
  | nil => rfl
  | cons kv t ih =>
    rw [List.map_cons]
    by_cases hk : kv.1 = k
    · rw [if_pos hk, alookup_cons, alookup_cons, if_neg (Ne.symm h),
        if_neg (by rw [hk]; exact Ne.symm h), ih]
    · rw [if_neg hk, alookup_cons, alookup_cons, ih]

theorem alookup_dictSet_self [DecidableEq K] (m : List (K × V)) (k : K)
    (v : V) : alookup (dictSet m k v) k = some v := by
  cases hl : (m.any fun kv => kv.1 = k) with
  | false =>
    rw [dictSet_fresh v ((alookup_none_iff_any m k).mpr hl)]
    rw [alookup_append, (alookup_none_iff_any m k).mpr hl, alookup_cons,
      if_pos rfl]
    rfl
  | true =>
    unfold dictSet
    rw [hl]
    show alookup (m.map fun kv => if kv.1 = k then (k, v) else kv) k = some v
    exact alookup_map_replace_self v hl

theorem alookup_dictSet_other [DecidableEq K] (m : List (K × V)) {k k2 : K}
    (v : V) (h : k2 ≠ k) : alookup (dictSet m k v) k2 = alookup m k2 := by
  unfold dictSet
  split
  · exact alookup_map_replace_other v h
  · rw [alookup_append, alookup_cons, if_neg (Ne.symm h)]
    show (alookup m k2).or (alookup [] k2) = _
    cases alookup m k2 <;> rfl

theorem not_mem_keys_of_alookup_none [DecidableEq K] {m : List (K × V)}
    {k : K} (h : alookup m k = Option.none) : k ∉ m.map Prod.fst := by
  intro hmem
  rw [List.mem_map] at hmem
  obtain ⟨kv, hkv, hfst⟩ := hmem
  rw [alookup_none_iff_any, List.any_eq_false] at h
  exact h kv hkv (by simpa using hfst)

theorem alookup_none_of_not_mem_keys [DecidableEq K] {m : List (K × V)}
    {k : K} (h : k ∉ m.map Prod.fst) : alookup m k = Option.none := by
  rw [alookup_none_iff_any, List.any_eq_false]
  intro kv hkv
  simp only [decide_eq_true_eq]
  intro he
  exact h (List.mem_map.mpr ⟨kv, hkv, he⟩)

theorem dictSet_keys_found [DecidableEq K] {m : List (K × V)} {k : K} (v : V)
    (h : (m.any fun kv => kv.1 = k) = true) :
    (dictSet m k v).map Prod.fst = m.map Prod.fst := by
  unfold dictSet
  rw [h]
  show (List.map Prod.fst (m.map fun kv => if kv.1 = k then (k, v) else kv))
      = m.map Prod.fst
  rw [List.map_map]
  refine List.map_congr_left ?_
  intro kv _
  by_cases hk : kv.1 = k
  · simp [hk]
  · simp [hk]

theorem dictSet_keys_fresh [DecidableEq K] {m : List (K × V)} {k : K} (v : V)
    (h : alookup m k = Option.none) :
    (dictSet m k v).map Prod.fst = m.map Prod.fst ++ [k] := by
  rw [dictSet_fresh v h, List.map_append]
  rfl

theorem mem_dictSet [DecidableEq K] {m : List (K × V)} {k : K} {v : V}
    {e : K × V} (he : e ∈ dictSet m k v) :
    e = (k, v) ∨ e ∈ m := by
  unfold dictSet at he
  split at he
  · rw [List.mem_map] at he
    obtain ⟨kv, hkv, heq⟩ := he
    by_cases hk : kv.1 = k
    · rw [if_pos hk] at heq
      exact Or.inl heq.symm
    · rw [if_neg hk] at heq
      exact Or.inr (heq ▸ hkv)
  · rw [List.mem_append] at he
    rcases he with he | he
    · exact Or.inr he
    · simp only [List.mem_singleton] at he
      exact Or.inl he

end LabSync
namespace LabSync

theorem any_key_eq_true [DecidableEq K] {m : List (K × V)} {k : K} {x : V}
    (h : alookup m k = some x) : (m.any fun kv => kv.1 = k) = true := by
  cases ha : (m.any fun kv => kv.1 = k) with
  | false =>
    rw [(alookup_none_iff_any m k).mpr ha] at h
    exact absurd h (by simp)
  | true => rfl

theorem alookup_mem [DecidableEq K] {m : List (K × V)} {k : K} {x : V}
    (h : alookup m k = some x) : (k, x) ∈ m := by
  unfold alookup at h
  cases hf : m.find? (fun kv => kv.1 = k) with
  | none =>
    rw [hf] at h
    exact absurd h (by simp)
  | some kv =>
    rw [hf] at h
    simp only [Option.map_some', Option.some.injEq] at h
    have hm := List.mem_of_find?_eq_some hf
    have hp : kv.1 = k := by simpa using List.find?_some hf
    subst h
    rw [← hp]
    exact hm

theorem organize_snoc (data : List ((String × String) × LabValue))
    (kv : (String × String) × LabValue) :
    organize (data ++ [kv])
      = dictSet (organize data) kv.1.1
          (dictSet ((alookup (organize data) kv.1.1).getD []) kv.1.2 kv.2)
      := by
  unfold organize
  rw [List.foldl_append]
  rfl

theorem organize_keys_nodup (data : List ((String × String) × LabValue)) :
    ((organize data).map Prod.fst).Nodup := by
  induction data using List.reverseRecOn with
  | nil => exact List.nodup_nil
  | append_singleton xs kv ih =>
    rw [organize_snoc]
    cases hl : alookup (organize xs) kv.1.1 with
    | some ps => rw [dictSet_keys_found _ (any_key_eq_true hl)]; exact ih
    | none =>
      rw [dictSet_keys_fresh _ hl]
      simp [List.nodup_append, ih, not_mem_keys_of_alookup_none hl]

theorem organize_mem (data : List ((String × String) × LabValue)) :
    ∀ dp ∈ organize data, ∀ pv ∈ dp.2, ((dp.1, pv.1), pv.2) ∈ data := by
  induction data using List.reverseRecOn with
  | nil => intro dp hdp; exact absurd hdp (List.not_mem_nil dp)
  | append_singleton xs kv ih =>
    intro dp hdp pv hpv
    rw [organize_snoc] at hdp
    rcases mem_dictSet hdp with heq | hmem
    · subst heq
      rcases mem_dictSet hpv with heq2 | hmem2
      · subst heq2
        exact List.mem_append_right _ (by simp)
      · cases hl : alookup (organize xs) kv.1.1 with
        | none =>
          rw [hl] at hmem2
          exact absurd hmem2 (List.not_mem_nil pv)
        | some ps0 =>
          rw [hl] at hmem2
          exact List.mem_append_left _ (ih (kv.1.1, ps0) (alookup_mem hl)
            pv hmem2)
    · exact List.mem_append_left _ (ih dp hmem pv hpv)

theorem organize_group_nodup (data : List ((String × String) × LabValue)) :
    ∀ dp ∈ organize data, (dp.2.map Prod.fst).Nodup := by
  induction data using List.reverseRecOn with
  | nil => intro dp hdp; exact absurd hdp (List.not_mem_nil dp)
  | append_singleton xs kv ih =>
    intro dp hdp
    rw [organize_snoc] at hdp
    rcases mem_dictSet hdp with heq | hmem
    · subst heq
      cases hl : alookup (organize xs) kv.1.1 with
      | none =>
        show ((dictSet (((Option.none : Option (List (String × LabValue)))
            ).getD []) kv.1.2 kv.2).map Prod.fst).Nodup
        simp [dictSet]
      | some ps0 =>
        show ((dictSet ps0 kv.1.2 kv.2).map Prod.fst).Nodup
        cases ha : (ps0.any fun x => x.1 = kv.1.2) with
        | true =>
          rw [dictSet_keys_found _ ha]
          exact ih (kv.1.1, ps0) (alookup_mem hl)
        | false =>
          rw [dictSet_keys_fresh _ ((alookup_none_iff_any ps0 kv.1.2).mpr ha)]
          simp [List.nodup_append, ih (kv.1.1, ps0) (alookup_mem hl),
            not_mem_keys_of_alookup_none
              ((alookup_none_iff_any ps0 kv.1.2).mpr ha)]
    · exact ih dp hmem

end LabSync
namespace LabSync

theorem organize_alookup2 (data : List ((String × String) × LabValue))
    (hnd : (data.map Prod.fst).Nodup) (d p : String) :
    alookup2 (organize data) d p = alookup data (d, p) := by
  induction data using List.reverseRecOn with
  | nil => rfl
  | append_singleton xs kv ih =>
    rw [List.map_append, List.nodup_append] at hnd
    obtain ⟨hnd1, _, hdisj⟩ := hnd
    have hnew : kv.1 ∉ xs.map Prod.fst := fun hmem =>
      hdisj hmem (by simp)
    have ihx := ih hnd1
    rw [organize_snoc, alookup_append]
    unfold alookup2
    by_cases hd : kv.1.1 = d
    · subst hd
      rw [alookup_dictSet_self]
      rw [Option.some_bind]
      by_cases hp : kv.1.2 = p
      · subst hp
        rw [alookup_dictSet_self]
        have hxs : alookup xs (kv.1.1, kv.1.2) = Option.none :=
          alookup_none_of_not_mem_keys (by
            rw [show ((kv.1.1, kv.1.2) : String × String) = kv.1 from rfl]
            exact hnew)
        rw [hxs, alookup_cons,
          if_pos (show kv.1 = (kv.1.1, kv.1.2) from rfl)]
        rfl
      · rw [alookup_dictSet_other _ _ (Ne.symm hp)]
        have hkvne : ¬ (kv.1 = ((kv.1.1, p) : String × String)) := fun he =>
          hp (congrArg Prod.snd he)
        rw [alookup_cons, if_neg hkvne]
        rw [show alookup ([] : List ((String × String) × LabValue))
            (kv.1.1, p) = Option.none from rfl]
        cases hl : alookup (organize xs) kv.1.1 with
        | none =>
          have hthis := ihx
          unfold alookup2 at hthis
          rw [hl, Option.none_bind] at hthis
          rw [← hthis]
          rfl
        | some ps0 =>
          have hthis := ihx
          unfold alookup2 at hthis
          rw [hl, Option.some_bind] at hthis
          rw [show (some ps0).getD [] = ps0 from rfl, hthis]
          cases alookup xs (kv.1.1, p) <;> rfl
    · rw [alookup_dictSet_other _ _ (Ne.symm hd)]
      have hkvne : ¬ (kv.1 = ((d, p) : String × String)) := fun he =>
        hd (congrArg Prod.fst he)
      rw [alookup_cons, if_neg hkvne]
      rw [show alookup ([] : List ((String × String) × LabValue))
          (d, p) = Option.none from rfl]
      have hthis : ((alookup (organize xs) d).bind fun ps => alookup ps p)
          = alookup xs (d, p) := ihx
      rw [hthis]
      cases alookup xs (d, p) <;> rfl

end LabSync
namespace LabSync

theorem alookup_block_same (d p : String) (ps : List (String × LabValue)) :
    alookup (ps.map fun pv => ((d, pv.1), pv.2)) (d, p) = alookup ps p := by
  induction ps with
  | nil => rfl
  | cons pv t ih =>
    rw [List.map_cons, alookup_cons, alookup_cons]
    by_cases hp : pv.1 = p
    · rw [if_pos (show ((d, pv.1), pv.2).1 = (d, p) from by rw [hp]),
        if_pos hp]
    · rw [if_neg (fun he => hp (congrArg Prod.snd
        (show (d, pv.1) = (d, p) from he))), if_neg hp, ih]

theorem alookup_block_other (d1 d p : String) (ps : List (String × LabValue))
    (h : d1 ≠ d) :
    alookup (ps.map fun pv => ((d1, pv.1), pv.2)) (d, p) = Option.none := by
  induction ps with
  | nil => rfl
  | cons pv t ih =>
    rw [List.map_cons, alookup_cons]
    rw [if_neg (fun he => h (congrArg Prod.fst
      (show (d1, pv.1) = (d, p) from he))), ih]

theorem alookup_flatten_none
    (org : List (String × List (String × LabValue))) (d p : String)
    (h : d ∉ org.map Prod.fst) :
    alookup (org.flatMap fun dp => dp.2.map fun pv => ((dp.1, pv.1), pv.2))
      (d, p) = Option.none := by
  induction org with
  | nil => rfl
  | cons dp t ih =>
    rw [List.flatMap_cons, alookup_append]
    simp only [List.map_cons, List.mem_cons, not_or] at h
    rw [alookup_block_other _ _ _ _ (fun he => h.1 he.symm), ih h.2]
    rfl

theorem alookup_flatten (org : List (String × List (String × LabValue)))
    (hnd : (org.map Prod.fst).Nodup) (d p : String) :
    alookup (org.flatMap fun dp => dp.2.map fun pv => ((dp.1, pv.1), pv.2))
      (d, p) = alookup2 org d p := by
  induction org with
  | nil => rfl
  | cons dp t ih =>
    rw [List.map_cons, List.nodup_cons] at hnd
    obtain ⟨hhead, htail⟩ := hnd
    rw [List.flatMap_cons, alookup_append]
    unfold alookup2
    rw [alookup_cons]
    by_cases hd : dp.1 = d
    · rw [if_pos hd, Option.some_bind]
      subst hd
      rw [alookup_block_same, alookup_flatten_none t dp.1 p hhead]
      cases alookup dp.2 p <;> rfl
    · rw [if_neg hd, alookup_block_other _ _ _ _ hd]
      have hthis : alookup (t.flatMap fun dp =>
            dp.2.map fun pv => ((dp.1, pv.1), pv.2)) (d, p)
          = (alookup t d).bind fun ps => alookup ps p := ih htail
      rw [hthis]
      rfl

end LabSync
namespace LabSync

theorem sortByIdx_sorted {m : List (ℕ × PyValue)}
    (h : m.Chain' fun a b => a.1 < b.1) : sortByIdx m = m := by
  unfold sortByIdx
  haveI : IsTrans (ℕ × PyValue) (fun a b => a.1 < b.1) :=
    ⟨fun a b c hab hbc => lt_trans hab hbc⟩
  have hp : m.Pairwise fun a b => a.1 < b.1 := List.chain'_iff_pairwise.mp h
  exact List.mergeSort_of_sorted (hp.imp fun hab => by
    simpa using le_of_lt hab)

theorem chain_lt_keys_nodup {m : List (ℕ × PyValue)}
    (h : m.Chain' fun a b => a.1 < b.1) : (m.map Prod.fst).Nodup := by
  haveI : IsTrans (ℕ × PyValue) (fun a b => a.1 < b.1) :=
    ⟨fun a b c hab hbc => lt_trans hab hbc⟩
  have hp : m.Pairwise fun a b => a.1 < b.1 := List.chain'_iff_pairwise.mp h
  exact (List.pairwise_map).mpr (hp.imp fun hab => Nat.ne_of_lt hab)

theorem load_chan_lines {d p : String} (hp : wfParam p)
    (base : List ((String × String) × LabValue))
    (hfresh : alookup base (d, p) = Option.none) :
    ∀ (rest done : List (ℕ × PyValue)),
      (∀ iv ∈ rest, wfScalar iv.2) →
      (rest.map Prod.fst).Nodup →
      (∀ iv ∈ rest, alookup done iv.1 = Option.none) →
      List.foldl loadStep
        { current_device := d,
          data := base ++ [((d, p), LabValue.chan done)] }
        (rest.map fun iv =>
          "\t" ++ p ++ "[" ++ String.mk (natDec iv.1) ++ "] = " ++ pyStr iv.2)
        = { current_device := d,
            data := base ++ [((d, p), LabValue.chan (done ++ rest))] } := by
  intro rest
  induction rest with
  | nil =>
    intro done _ _ _
    rw [List.map_nil, List.foldl_nil, List.append_nil]
  | cons iv tl ih =>
    intro done hwf hnodup hfreshkeys
    rw [List.map_cons, List.foldl_cons]
    rw [loadStep_chan _ hp (hwf iv (by simp))]
    dsimp only
    rw [show alookup (base ++ [((d, p), LabValue.chan done)]) (d, p)
        = some (LabValue.chan done) from alookup_snoc_self _ _ _ hfresh]
    rw [dictSet_fresh iv.2 (hfreshkeys iv (by simp))]
    rw [dictSet_replace_snoc _ _ hfresh]
    rw [List.map_cons, List.nodup_cons] at hnodup
    have := ih (done ++ [(iv.1, iv.2)])
      (fun jv hj => hwf jv (by simp [hj]))
      hnodup.2
      (fun jv hj => by
        rw [alookup_append, hfreshkeys jv (by simp [hj]), alookup_cons,
          if_neg (fun he => hnodup.1 (by
            rw [he]
            exact List.mem_map_of_mem Prod.fst hj))]
        rfl)
    rw [this, List.append_assoc]
    rfl

theorem load_chan_block {d p : String} (hp : wfParam p)
    {base : List ((String × String) × LabValue)}
    (hfresh : alookup base (d, p) = Option.none)
    {m : List (ℕ × PyValue)} (hm : m ≠ [])
    (hwf : ∀ iv ∈ m, wfScalar iv.2)
    (hnodup : (m.map Prod.fst).Nodup) :
    List.foldl loadStep { current_device := d, data := base }
      (m.map fun iv =>
        "\t" ++ p ++ "[" ++ String.mk (natDec iv.1) ++ "] = " ++ pyStr iv.2)
      = { current_device := d,
          data := base ++ [((d, p), LabValue.chan m)] } := by
  cases m with
  | nil => exact absurd rfl hm
  | cons iv tl =>
    rw [List.map_cons, List.foldl_cons]
    rw [loadStep_chan _ hp (hwf iv (by simp))]
    dsimp only
    rw [hfresh]
    rw [show dictSet ([] : List (ℕ × PyValue)) iv.1 iv.2
        = [(iv.1, iv.2)] from rfl]
    rw [dictSet_fresh _ hfresh]
    rw [List.map_cons, List.nodup_cons] at hnodup
    have := load_chan_lines hp base hfresh tl [(iv.1, iv.2)]
      (fun jv hj => hwf jv (by simp [hj]))
      hnodup.2
      (fun jv hj => by
        rw [alookup_cons,
          if_neg (fun he => hnodup.1 (by
            rw [he]
            exact List.mem_map_of_mem Prod.fst hj))]
        rfl)
    rw [this]
    rfl

end LabSync
namespace LabSync

theorem load_param_block {d : String} (pv : String × LabValue)
    (hp : wfParam pv.1) (hv : wfValue pv.2)
    {base : List ((String × String) × LabValue)}
    (hfresh : alookup base (d, pv.1) = Option.none) :
    List.foldl loadStep { current_device := d, data := base }
      (saveParamLines pv.1 pv.2)
      = { current_device := d, data := base ++ [((d, pv.1), pv.2)] } := by
  cases hv2 : pv.2 with
  | scalar v =>
    rw [saveParamLines, List.foldl_cons, List.foldl_nil]
    rw [loadStep_scalar _ hp (by rw [hv2] at hv; exact hv)]
    dsimp only
    rw [dictSet_fresh _ hfresh]
  | chan m =>
    rw [hv2] at hv
    obtain ⟨hm, hchain, hwfs⟩ := hv
    rw [saveParamLines, sortByIdx_sorted hchain]
    exact load_chan_block hp hfresh hm hwfs (chain_lt_keys_nodup hchain)

theorem load_params_block {d : String} (ps : List (String × LabValue))
    (hwf : ∀ pv ∈ ps, wfParam pv.1 ∧ wfValue pv.2)
    (hnodup : (ps.map Prod.fst).Nodup) :
    ∀ base : List ((String × String) × LabValue),
      (∀ pv ∈ ps, alookup base (d, pv.1) = Option.none) →
      List.foldl loadStep { current_device := d, data := base }
        (ps.flatMap fun pv => saveParamLines pv.1 pv.2)
        = { current_device := d,
            data := base ++ ps.map fun pv => ((d, pv.1), pv.2) } := by
  induction ps with
  | nil =>
    intro base _
    rw [List.flatMap_nil, List.foldl_nil, List.map_nil, List.append_nil]
  | cons pv tl ih =>
    intro base hfresh
    rw [List.flatMap_cons, List.foldl_append]
    rw [load_param_block pv (hwf pv (by simp)).1 (hwf pv (by simp)).2
      (hfresh pv (by simp))]
    rw [List.map_cons, List.nodup_cons] at hnodup
    have := ih (fun qv hq => hwf qv (by simp [hq])) hnodup.2
      (base ++ [((d, pv.1), pv.2)])
      (fun qv hq => by
        rw [alookup_append, hfresh qv (by simp [hq]), alookup_cons,
          if_neg (fun he => hnodup.1 (by
            rw [show pv.1 = qv.1 from congrArg Prod.snd he]
            exact List.mem_map_of_mem Prod.fst hq))]
        rfl)
    rw [this, List.append_assoc]
    rfl

theorem load_device_block (dp : String × List (String × LabValue))
    (hd : wfDevice dp.1)
    (hwf : ∀ pv ∈ dp.2, wfParam pv.1 ∧ wfValue pv.2)
    (hnodup : (dp.2.map Prod.fst).Nodup)
    (st : LoadState)
    (hfresh : ∀ pv ∈ dp.2, alookup st.data (dp.1, pv.1) = Option.none) :
    List.foldl loadStep st
      (("[" ++ dp.1 ++ "]") ::
        ((dp.2.flatMap fun pv => saveParamLines pv.1 pv.2) ++ [""]))
      = { current_device := dp.1,
          data := st.data ++ dp.2.map fun pv => ((dp.1, pv.1), pv.2) } := by
  rw [List.foldl_cons, loadStep_section st hd]
  rw [List.foldl_append]
  rw [show ({ st with current_device := dp.1 } : LoadState)
      = { current_device := dp.1, data := st.data } from rfl]
  rw [load_params_block dp.2 hwf hnodup st.data hfresh]
  rw [List.foldl_cons, List.foldl_nil]
  rw [loadStep_blank _ (show classifyLine "" = LabLine.blank from rfl)]

end LabSync
namespace LabSync

theorem dictSet_ne_nil [DecidableEq K] (m : List (K × V)) (k : K) (v : V) :
    dictSet m k v ≠ [] := by
  unfold dictSet
  split
  · next hc =>
    intro he
    rw [List.map_eq_nil_iff] at he
    subst he
    simp at hc
  · intro he
    simp at he

theorem organize_groups_ne_nil (data : List ((String × String) × LabValue)) :
    ∀ dp ∈ organize data, dp.2 ≠ [] := by
  induction data using List.reverseRecOn with
  | nil => intro dp hdp; exact absurd hdp (List.not_mem_nil dp)
  | append_singleton xs kv ih =>
    intro dp hdp
    rw [organize_snoc] at hdp
    rcases mem_dictSet hdp with heq | hmem
    · subst heq
      exact dictSet_ne_nil _ _ _
    · exact ih dp hmem

theorem load_all_blocks (orgL : List (String × List (String × LabValue))) :
    ∀ st : LoadState,
      (∀ dp ∈ orgL, wfDevice dp.1 ∧ ∀ pv ∈ dp.2, wfParam pv.1 ∧ wfValue pv.2)
      →
      (∀ dp ∈ orgL, (dp.2.map Prod.fst).Nodup) →
      (orgL.map Prod.fst).Nodup →
      (∀ dp ∈ orgL, ∀ pv ∈ dp.2,
        alookup st.data (dp.1, pv.1) = Option.none) →
      (List.foldl loadStep st (orgL.flatMap fun dp =>
          ("[" ++ dp.1 ++ "]") ::
            ((dp.2.flatMap fun pv => saveParamLines pv.1 pv.2) ++ [""]))).data
        = st.data ++ (orgL.flatMap fun dp =>
            dp.2.map fun pv => ((dp.1, pv.1), pv.2)) := by
  induction orgL with
  | nil =>
    intro st _ _ _ _
    simp
  | cons dp tl ih =>
    intro st hwf hnodup hdnodup hfresh
    rw [List.flatMap_cons, List.foldl_append]
    rw [load_device_block dp (hwf dp (by simp)).1
      (fun pv hp => (hwf dp (by simp)).2 pv hp)
      (hnodup dp (by simp)) st (hfresh dp (by simp))]
    rw [List.map_cons, List.nodup_cons] at hdnodup
    rw [ih _ (fun dq hq => hwf dq (by simp [hq]))
      (fun dq hq => hnodup dq (by simp [hq])) hdnodup.2
      (fun dq hq pv hpv => by
        show alookup (st.data ++ dp.2.map fun pv2 => ((dp.1, pv2.1), pv2.2))
          (dq.1, pv.1) = Option.none
        rw [alookup_append, hfresh dq (by simp [hq]) pv hpv,
          alookup_block_other dp.1 dq.1 pv.1 dp.2 (fun he =>
            hdnodup.1 (by
              rw [he]
              exact List.mem_map_of_mem Prod.fst hq))]
        rfl)]
    rw [List.flatMap_cons, List.append_assoc]

theorem parser_load_save (t : String)
    (data : List ((String × String) × LabValue)) (hwf : wfData data) :
    ∀ k v, alookup data k = some v →
      alookup (parser_load (parser_save t data)) k = some v := by
  intro k v hk
  obtain ⟨hnd, hmemwf⟩ := hwf
  unfold parser_save parser_load
  rw [show (["# Lab Instrument configuration file", "# Saved on " ++ t, ""]
        ++ ((organize data).flatMap fun dp =>
          ("[" ++ dp.1 ++ "]") ::
            ((dp.2.flatMap fun pv => saveParamLines pv.1 pv.2) ++ [""])))
      = "# Lab Instrument configuration file" :: ("# Saved on " ++ t) :: ""
        :: ((organize data).flatMap fun dp =>
          ("[" ++ dp.1 ++ "]") ::
            ((dp.2.flatMap fun pv => saveParamLines pv.1 pv.2) ++ [""]))
      from rfl]
  rw [List.foldl_cons, loadStep_blank _
    (show classifyLine "# Lab Instrument configuration file" = LabLine.blank
      from rfl)]
  rw [List.foldl_cons, loadStep_blank _
    (classify_hash_head (show ("# Saved on " ++ t).data
      = '#' :: (" Saved on ".data ++ t.data) from rfl))]
  rw [List.foldl_cons, loadStep_blank _
    (show classifyLine "" = LabLine.blank from rfl)]
  rw [load_all_blocks (organize data)
    { current_device := "Global", data := [] }
    (fun dp hdp => by
      obtain ⟨pv0, hpv0⟩ :=
        List.exists_mem_of_ne_nil dp.2 (organize_groups_ne_nil data dp hdp)
      refine ⟨(hmemwf _ (organize_mem data dp hdp pv0 hpv0)).1, ?_⟩
      intro pv hpv
      have hm := hmemwf _ (organize_mem data dp hdp pv hpv)
      exact ⟨hm.2.1, hm.2.2⟩)
    (organize_group_nodup data)
    (organize_keys_nodup data)
    (fun dp _ pv _ => rfl)]
  rw [List.nil_append]
  obtain ⟨d0, p0⟩ := k
  rw [alookup_flatten _ (organize_keys_nodup data) d0 p0,
    organize_alookup2 data hnd]
  exact hk

end LabSync
namespace LabSync

/-- C9 counterexample: the round trip is lossy on unrestricted snapshots.
A `#` inside a saved string value is cut off by the loader's comment
stripping (`"a#b"` comes back as `"a"`), and a parameter name containing
`-` does not match the loader's `\w+` group, so its key is dropped
entirely. -/
theorem C9_counterexample :
    alookup (parser_load (parser_save "2024-01-01"
        [(("Dev", "p"), LabValue.scalar (PyValue.str "a#b"))]))
      ("Dev", "p")
      = some (LabValue.scalar (PyValue.str "a")) ∧
    alookup (parser_load (parser_save "2024-01-01"
        [(("Dev", "my-param"), LabValue.scalar (PyValue.int 1))]))
      ("Dev", "my-param")
      = Option.none := by
  constructor <;> rfl

/-- C9 (amended): for cache snapshots with distinct keys, printable
strip-invariant device names, `\w+` parameter names and round-trippable
values (scalars whose rendering parses back, and nonempty ascending
channel maps of such scalars), `parser_save` followed by `parser_load`
preserves every key present at save time together with its saved
value. -/
theorem C9_amended_roundtrip (t : String)
    (data : List ((String × String) × LabValue)) (hwf : wfData data)
    (k : String × String) (v : LabValue) (hk : alookup data k = some v) :
    alookup (parser_load (parser_save t data)) k = some v :=
  parser_load_save t data hwf k v hk

/-- C9 witness: a concrete two-device snapshot (an int scalar and a
channel map holding a string and a bool) is well-formed and survives the
round trip. -/
theorem C9_witness :
    alookup (parser_load (parser_save "2024-05-01 12:00"
      [(("Dev", "a"), LabValue.scalar (PyValue.int 7)),
       (("Dev", "b"), LabValue.chan [(1, PyValue.str "hello"),
         (2, PyValue.bool true)])])) ("Dev", "b")
      = some (LabValue.chan [(1, PyValue.str "hello"),
          (2, PyValue.bool true)]) :=
  C9_amended_roundtrip "2024-05-01 12:00" _ (by
    refine ⟨by decide, ?_⟩
    intro kv hkv
    rcases List.mem_cons.mp hkv with rfl | hkv2
    · exact ⟨⟨by decide, by decide⟩, ⟨by decide, by decide⟩, trivial⟩
    rcases List.mem_cons.mp hkv2 with rfl | hkv3
    · refine ⟨⟨by decide, by decide⟩, ⟨by decide, by decide⟩,
        by decide, List.Chain.cons (by decide) List.Chain.nil, ?_⟩
      intro iv hiv
      rcases List.mem_cons.mp hiv with rfl | hiv2
      · exact ⟨by decide, by decide, by decide, by decide, by decide,
          by decide, by decide, by decide, by decide, rfl, rfl⟩
      rcases List.mem_cons.mp hiv2 with rfl | hiv3
      · trivial
      · exact absurd hiv3 (List.not_mem_nil iv)
    · exact absurd hkv3 (List.not_mem_nil kv)) ("Dev", "b") _ rfl

end LabSync
